import Mathlib

/-!
Verification development for the nnUNet_package repository
(src/nnUNet_package/main.py and src/nnUNet_package/predict.py).

The two Python modules are thin filesystem/JSON orchestration around an
external inference engine.  We embed them shallowly:

* The filesystem is a flat association list from path strings to entries
  (regular file, directory, or symbolic link).  Directory structure is not
  enforced beyond path prefixes; `os.path.exists` follows one level of
  symlink (enough for the link shapes the code creates), `os.path.lexists`
  does not.
* JSON documents are an inductive `Json` value; files store `Json` directly
  (so `json.load`/`json.dump` are the identity on the stored value).
* The global mutable dict `GLOBAL_CONTEXT` becomes an explicit `Ctx` value
  threaded through the call sequence.
* External collaborators (network download, zip extraction, SimpleITK
  image conversion, the nnUNetv2 inference engine) are parameters of the
  models: `net` maps a URL to the archive blob, `unzip` maps a blob to the
  archive's (relative path, file) entries, `conv` is image conversion, and
  `inferRun` is the inference step's effect on the filesystem.  The
  environment-variable export `nnUNet_results` in main.py is not modelled
  (no claim concerns it).
* Raised Python exceptions become `Except Err`; observable side effects
  relevant to the claims (network fetch, archive extraction, inference
  launch) are recorded in an event trace.

Functions with the same name in both modules get an `_M` (main.py) or `_P`
(predict.py) suffix.
-/

namespace NNU

abbrev Path := String

/-- Claim-independent JSON value model (`json.load` result). -/
inductive Json where
  | null : Json
  | bool : Bool → Json
  | num : Int → Json
  | str : String → Json
  | arr : List Json → Json
  | obj : List (String × Json) → Json

/-- A filesystem entry: regular file (with its JSON/byte content), directory,
or symbolic link to a target path. -/
inductive FSEntry where
  | file : Json → FSEntry
  | dir : FSEntry
  | symlink : Path → FSEntry

/-- The filesystem: a flat association list from absolute path to entry. -/
abbrev FS := List (Path × FSEntry)

/-- Python exceptions raised by the modelled code. -/
inductive Err where
  | keyError
  | fileNotFound
  | runtimeError
  | fileExists
  | readError
  | typeError
  | valueError
deriving DecidableEq

/-- Observable external effects of a run, for ordering claims. -/
inductive Event where
  | download : String → Event
  | extract : Path → Path → Event
  | inference : Event
deriving DecidableEq

/-- The global mutable context of both modules
(`GLOBAL_CONTEXT = {"dataset_json_path": None, "dataset_labels": None}`). -/
structure Ctx where
  dataset_json_path : Option Path
  dataset_labels : Option (List (Int × String))

/-- The fresh context a single-shot run starts from. -/
def freshCtx : Ctx := ⟨none, none⟩

def FS.lookup : FS → Path → Option FSEntry
  | [], _ => none
  | (q, e) :: rest, p => if q = p then some e else FS.lookup rest p

def FS.remove : FS → Path → FS
  | [], _ => []
  | (q, e) :: rest, p => if q = p then FS.remove rest p else (q, e) :: FS.remove rest p

/-- Create/overwrite the entry at a path (the raw store operation). -/
def FS.set (fs : FS) (p : Path) (e : FSEntry) : FS := (p, e) :: FS.remove fs p

/-- `os.path.lexists`: an entry is present, even a broken symlink. -/
def FS.lexists (fs : FS) (p : Path) : Bool := (FS.lookup fs p).isSome

/-- `os.path.exists`: follows (one level of) symlink, so a dangling
symlink does not count as existing. -/
def FS.pexists (fs : FS) (p : Path) : Bool :=
  match FS.lookup fs p with
  | some (FSEntry.symlink t) => (FS.lookup fs t).isSome
  | some _ => true
  | none => false

/-- `os.makedirs(p, exist_ok=True)`: create the directory if no entry is
present (intermediate directories are immaterial in the flat model). -/
def FS.mkdir (fs : FS) (p : Path) : FS :=
  if FS.lexists fs p then fs else FS.set fs p FSEntry.dir

/-- Read a file's content, following one level of symlink
(as `open`/`sitk.ReadImage`/`shutil.copy` do on the source side). -/
def FS.readFile (fs : FS) (p : Path) : Option Json :=
  match FS.lookup fs p with
  | some (FSEntry.file c) => some c
  | some (FSEntry.symlink t) =>
    match FS.lookup fs t with
    | some (FSEntry.file c) => some c
    | _ => none
  | _ => none

/-- Write a file's content, writing through a symlink if one is at the
path (as `open(.., "w")`/`sitk.WriteImage` do). -/
def FS.writeFile (fs : FS) (p : Path) (c : Json) : FS :=
  match FS.lookup fs p with
  | some (FSEntry.symlink t) => FS.set fs t (FSEntry.file c)
  | _ => FS.set fs p (FSEntry.file c)

/-- `os.rename old new`: move the entry (the link itself, not its target).
The callers guard existence of `old` before calling. -/
def FS.rename (fs : FS) (old new : Path) : FS :=
  match FS.lookup fs old with
  | some e => FS.set (FS.remove fs old) new e
  | none => fs

/-- `os.symlink target dst`: raises `FileExistsError` when any entry (even a
broken link) is already at `dst`. -/
def fsSymlink (fs : FS) (target dst : Path) : Except Err FS :=
  if FS.lexists fs dst then Except.error Err.fileExists
  else Except.ok (FS.set fs dst (FSEntry.symlink target))

/-- Boolean test that one character list starts with another. -/
def listStarts : List Char → List Char → Bool
  | [], _ => true
  | _ :: _, [] => false
  | a :: as, b :: bs => a = b && listStarts as bs

/-- `os.path.join` (with a single separator, as the code always joins
a directory with a relative name). -/
def joinPath (d x : Path) : Path := d ++ "/" ++ x

/-- Whether `p` lies strictly under directory `d` (has `d ++ "/"` in front). -/
def inDir (d p : Path) : Bool := listStarts (d ++ "/").data p.data

/-- `os.path.dirname`: everything before the last slash ("" when no slash). -/
def dirname (p : Path) : Path :=
  match p.data.reverse.dropWhile (fun c => c ≠ '/') with
  | [] => ""
  | _ :: rest => String.mk rest.reverse

/-- Python's `str.lower`, character by character. -/
def strLower (s : String) : String := String.mk (s.data.map Char.toLower)

/-- The extension part of `os.path.splitext` (last dot of the last path
component; leading dots of the component do not start an extension). -/
def splitextExt (p : Path) : String :=
  let base := (p.data.reverse.takeWhile (fun c => c ≠ '/')).reverse
  let lead := (base.takeWhile (fun c => c = '.')).length
  let rest := base.drop lead
  let revAfter := rest.reverse.takeWhile (fun c => c ≠ '.')
  if revAfter.length = rest.length then "" else String.mk ('.' :: revAfter.reverse)

/-- Boolean membership of a path in a path list. -/
def memB (p : Path) : List Path → Bool
  | [] => false
  | q :: rest => p = q || memB p rest

def isFileB : FSEntry → Bool
  | FSEntry.file _ => true
  | _ => false

/-- Python dict read at the key-value-list level. -/
def getKV : List (String × Json) → String → Option Json
  | [], _ => none
  | (k', v) :: rest, k => if k' = k then some v else getKV rest k

/-- Python dict read `d[k]` / `d.get(k)` on a JSON object. -/
def objGet : Json → String → Option Json
  | Json.obj kvs, k => getKV kvs k
  | _, _ => none

/-- Python dict deletion `d.pop(k, None)` at the key-value-list level. -/
def delKV : List (String × Json) → String → List (String × Json)
  | [], _ => []
  | (k', v) :: rest, k => if k' = k then delKV rest k else (k', v) :: delKV rest k

/-- Python dict write `d[k] = v` at the key-value-list level: replace in
place when present, append otherwise. -/
def setKV : List (String × Json) → String → Json → List (String × Json)
  | [], k, v => [(k, v)]
  | (k', w) :: rest, k, v => if k' = k then (k, v) :: rest else (k', w) :: setKV rest k v

/-- Two-level registry lookup `config[mode][structure]` of main.py. -/
def objGet2 (config : Json) (a b : String) : Option Json :=
  match objGet config a with
  | some j => objGet j b
  | none => none

/-- Three-level registry lookup `config[animal][mode][structure]` of predict.py. -/
def objGet3 (config : Json) (a b c : String) : Option Json :=
  match objGet2 config a b with
  | some j => objGet j c
  | none => none

/-- Field access that must produce a string (model URL / model name). -/
def objGetStr (j : Json) (k : String) : Option String :=
  match objGet j k with
  | some (Json.str s) => some s
  | _ => none

/-- Association-list lookup for the integer-keyed label cache. -/
def lookupI : List (Int × String) → Int → Option String
  | [], _ => none
  | (k', v) :: rest, k => if k' = k then some v else lookupI rest k

/-- Python dict insertion for the label cache (replace in place or append),
mirroring how a dict comprehension accumulates entries. -/
def dictInsert : List (Int × String) → Int → String → List (Int × String)
  | [], k, v => [(k, v)]
  | (k', v') :: rest, k, v =>
    if k' = k then (k, v) :: rest else (k', v') :: dictInsert rest k v

/-- The label cache built by both modules:
`{int(v): k for k, v in raw_label_map.items() if int(v) > 0}`. -/
def buildLabelCache (raw : List (String × Int)) : List (Int × String) :=
  raw.foldl (fun m kv => if 0 < kv.2 then dictInsert m kv.2 kv.1 else m) []

/-- `raw_label_map.items()` with `int(v)` applied to every value; `none`
models the `ValueError` of `int` on a non-integer label value, or a
non-object `"labels"` field. -/
def labelsOfJson : Json → Option (List (String × Int))
  | Json.obj kvs =>
    kvs.foldr
      (fun kv acc =>
        match acc, kv.2 with
        | some l, Json.num n => some ((kv.1, n) :: l)
        | _, _ => none)
      (some [])
  | _ => none

/-- Whether `p` is a path of a `dataset.json` somewhere under `mp`, as the
`os.walk` loops of both modules look for (a direct or nested child whose
final component is `dataset.json`). -/
def isDatasetJsonUnder (mp p : Path) : Bool :=
  inDir mp p && listStarts "/dataset.json".data.reverse p.data.reverse

/-- The `os.walk` search for `dataset.json` under a model directory
(`find_dataset_json` in predict.py, the inline loop in main.py).  The walk
order over a real directory tree is abstracted to the store's list order;
the claims only depend on whether such a file exists at all. -/
def walkGo (mp : Path) : FS → Option Path
  | [] => none
  | (p, e) :: rest =>
    if isDatasetJsonUnder mp p && isFileB e then some p else walkGo mp rest

def walkFindDatasetJson (fs : FS) (mp : Path) : Option Path := walkGo mp fs

/-- `zipfile.ZipFile(..).extractall(model_path)`: create the target
directory and write every archive member under it. -/
def extractAll (fs : FS) (model_path : Path) (entries : List (String × Json)) : FS :=
  entries.foldl (fun fs e => FS.set fs (joinPath model_path e.1) (FSEntry.file e.2))
    (FS.set fs model_path FSEntry.dir)

/-- Load `labels` from a manifest value and cache them in the context
(common tail of both `download_and_extract_model` implementations). -/
def loadLabels (ctx : Ctx) (dj : Json) : Except Err Ctx :=
  match labelsOfJson (match objGet dj "labels" with
                      | some l => l
                      | none => Json.obj []) with
  | some raw => Except.ok { ctx with dataset_labels := some (buildLabelCache raw) }
  | none => Except.error Err.valueError

/-- Open the manifest at `djp` and cache its labels in the context
(common tail of both `download_and_extract_model` implementations;
`open` on a missing file raises `FileNotFoundError`). -/
def loadManifestLabels (fs : FS) (ctx : Ctx) (djp : Path) : Except Err Ctx :=
  match FS.readFile fs djp with
  | none => Except.error Err.fileNotFound
  | some dj => loadLabels ctx dj

/-- The filesystem after the conditional download-and-extract branch of
both `download_and_extract_model` implementations. -/
def fetchedFS (net : String → Json) (unzip : Json → List (String × Json))
    (fs : FS) (model_url model_path zip_path : Path) : FS :=
  if FS.pexists fs model_path then fs
  else extractAll (FS.set fs zip_path (FSEntry.file (net model_url))) model_path
    (unzip (net model_url))

/-- The events emitted by the conditional download-and-extract branch. -/
def fetchEvents (fs : FS) (model_url model_path zip_path : Path) : List Event :=
  if FS.pexists fs model_path then []
  else [Event.download model_url, Event.extract zip_path model_path]

/-- The filesystem after fetching and after predict.py's unconditional
archive removal (`if os.path.exists(zip_path): os.remove(zip_path)`). -/
def fetchedCleanFS (net : String → Json) (unzip : Json → List (String × Json))
    (fs : FS) (model_url model_path zip_path : Path) : FS :=
  let base := fetchedFS net unzip fs model_url model_path zip_path
  if FS.pexists base zip_path then FS.remove base zip_path else base

/-- `download_and_extract_model` of main.py: download and extract when the
model directory is absent (the archive file is never deleted), then walk
for `dataset.json`; the context keeps a previously found path when the walk
finds none, and `FileNotFoundError` is raised when the context has no path
at all; finally the labels are cached.  Returns the model path. -/
def download_and_extract_model_M (net : String → Json) (unzip : Json → List (String × Json))
    (fs : FS) (ctx : Ctx) (model_url model_name default_dir : String) :
    Except Err (FS × Ctx × Path) × List Event :=
  let model_path := joinPath default_dir model_name
  let zip_path := joinPath default_dir (model_name ++ ".zip")
  let evs := fetchEvents fs model_url model_path zip_path
  let fs := fetchedFS net unzip fs model_url model_path zip_path
  match walkFindDatasetJson fs model_path, ctx.dataset_json_path with
  | none, none => (Except.error Err.fileNotFound, evs)
  | some p, _ =>
    (match loadManifestLabels fs { ctx with dataset_json_path := some p } p with
     | Except.error e => Except.error e
     | Except.ok ctx2 => Except.ok (fs, ctx2, model_path),
     evs)
  | none, some djp =>
    (match loadManifestLabels fs ctx djp with
     | Except.error e => Except.error e
     | Except.ok ctx2 => Except.ok (fs, ctx2, model_path),
     evs)

/-- `download_and_extract_model` of predict.py: like main.py's but it
removes the archive afterwards, and `find_dataset_json` raises on its own
(the context path is overwritten unconditionally).  Returns no path. -/
def download_and_extract_model_P (net : String → Json) (unzip : Json → List (String × Json))
    (fs : FS) (ctx : Ctx) (model_url model_name default_dir : String) :
    Except Err (FS × Ctx) × List Event :=
  let model_path := joinPath default_dir model_name
  let zip_path := joinPath default_dir (model_name ++ ".zip")
  let evs := fetchEvents fs model_url model_path zip_path
  let fs := fetchedCleanFS net unzip fs model_url model_path zip_path
  match walkFindDatasetJson fs model_path with
  | none => (Except.error Err.fileNotFound, evs)
  | some djp =>
    (match loadManifestLabels fs { ctx with dataset_json_path := some djp } djp with
     | Except.error e => Except.error e
     | Except.ok ctx2 => Except.ok (fs, ctx2),
     evs)

/-- main.py's stale-destination removal before staging:
`if os.path.exists(dst): os.remove(dst)` — a dangling symlink at `dst` is
not removed, since `os.path.exists` follows the link. -/
def clearDst_M (fs : FS) (dst : Path) : FS :=
  if FS.pexists fs dst then FS.remove fs dst else fs

/-- predict.py's stale-destination removal before staging:
`if os.path.lexists(dst): os.remove(dst)` — any entry, even a broken
symlink, is removed. -/
def clearDst_P (fs : FS) (dst : Path) : FS :=
  if FS.lexists fs dst then FS.remove fs dst else fs

/-- The common manifest rewrite: drop `"training"`, set `numTraining := 0`,
`numTest := 1` (the `"test"` list is set after staging, see the callers). -/
def manifestRewrite (kvs : List (String × Json)) : List (String × Json) :=
  setKV (setKV (delKV kvs "training") "numTraining" (Json.num 0)) "numTest" (Json.num 1)

/-- The fixed staged-input destination next to the manifest. -/
def stagedDst (djp : Path) : Path :=
  joinPath (joinPath (dirname djp) "imagesTs") "001_0000.nrrd"

/-- `edit_dataset_json_for_prediction` of main.py: rewrite the manifest for
a one-image test set and stage the input at `imagesTs/001_0000.nrrd`
(symlink for `.nrrd` input, SimpleITK conversion otherwise).  The stale
destination is removed only when `os.path.exists` holds, so a dangling
symlink survives into `os.symlink`.  Returns (manifest path, imagesTs path). -/
def edit_dataset_json_M (conv : Json → Json) (fs : FS) (ctx : Ctx) (input_image : Path) :
    Except Err (FS × Path × Path) :=
  match ctx.dataset_json_path with
  | none => Except.error Err.runtimeError
  | some djp =>
    match FS.readFile fs djp with
    | none => Except.error Err.fileNotFound
    | some dj =>
      match dj with
      | Json.obj kvs =>
        let kvs := manifestRewrite kvs
        let imagesTs_path := joinPath (dirname djp) "imagesTs"
        let fs := FS.mkdir fs imagesTs_path
        let dst := joinPath imagesTs_path "001_0000.nrrd"
        let fs := clearDst_M fs dst
        let staged : Except Err FS :=
          if strLower (splitextExt input_image) = ".nrrd" then
            fsSymlink fs input_image dst
          else
            match FS.readFile fs input_image with
            | some img => Except.ok (FS.writeFile fs dst (conv img))
            | none => Except.error Err.readError
        match staged with
        | Except.error e => Except.error e
        | Except.ok fs =>
          let kvs := setKV kvs "test" (Json.arr [Json.arr [Json.str "./imagesTs/001_0000.nrrd"]])
          let fs := FS.writeFile fs djp (Json.obj kvs)
          Except.ok (fs, djp, imagesTs_path)
      | _ => Except.error Err.typeError

/-- `edit_dataset_json_for_prediction` of predict.py: like main.py's, but
the stale destination is removed whenever `os.path.lexists` holds (even a
broken link), and a `.nrrd` input is copied (`shutil.copy`) instead of
symlinked.  Returns the imagesTs path only. -/
def edit_dataset_json_P (conv : Json → Json) (fs : FS) (ctx : Ctx) (input_image : Path) :
    Except Err (FS × Path) :=
  match ctx.dataset_json_path with
  | none => Except.error Err.runtimeError
  | some djp =>
    match FS.readFile fs djp with
    | none => Except.error Err.fileNotFound
    | some dj =>
      match dj with
      | Json.obj kvs =>
        let kvs := manifestRewrite kvs
        let imagesTs_path := joinPath (dirname djp) "imagesTs"
        let fs := FS.mkdir fs imagesTs_path
        let dst := joinPath imagesTs_path "001_0000.nrrd"
        let fs := clearDst_P fs dst
        let staged : Except Err FS :=
          if strLower (splitextExt input_image) = ".nrrd" then
            match FS.readFile fs input_image with
            | some c => Except.ok (FS.writeFile fs dst c)
            | none => Except.error Err.readError
          else
            match FS.readFile fs input_image with
            | some img => Except.ok (FS.writeFile fs dst (conv img))
            | none => Except.error Err.readError
        match staged with
        | Except.error e => Except.error e
        | Except.ok fs =>
          let kvs := setKV kvs "test" (Json.arr [Json.arr [Json.str "./imagesTs/001_0000.nrrd"]])
          let fs := FS.writeFile fs djp (Json.obj kvs)
          Except.ok (fs, imagesTs_path)
      | _ => Except.error Err.typeError

/-- `rename_prediction_file` of main.py: rename the raw output to the
user's name when it exists; warn and return the original path otherwise. -/
def rename_prediction_file_M (fs : FS) (prediction_path : Path) (new_name : String) :
    FS × Path :=
  let new_path := joinPath (dirname prediction_path) (new_name ++ ".nrrd")
  if FS.pexists fs prediction_path then (FS.rename fs prediction_path new_path, new_path)
  else (fs, prediction_path)

/-- `rename_prediction_file` of predict.py: same rename/warn behaviour, but
the Python function has no return statement, so it returns `None` on every
path (modelled as the second component being always `none`). -/
def rename_prediction_file_P (fs : FS) (prediction_path : Path) (new_name : String) :
    FS × Option Path :=
  let new_path := joinPath (dirname prediction_path) (new_name ++ ".nrrd")
  if FS.pexists fs prediction_path then (FS.rename fs prediction_path new_path, none)
  else (fs, none)

/-- The scratch manifest files nnUNetv2 leaves in the output directory. -/
def scratchNames : List String := ["dataset.json", "plans.json", "predict_from_raw_data_args.json"]

/-- `cleanup_prediction_files` (identical in both modules): delete each
scratch file from the output directory when present. -/
def cleanup_prediction_files (fs : FS) (output_path : Path) : FS :=
  scratchNames.foldl
    (fun fs fname =>
      let fpath := joinPath output_path fname
      if FS.pexists fs fpath then FS.remove fs fpath else fs)
    fs

/-- The files the inference engine may leave in the output directory:
the raw prediction and the three scratch manifests. -/
def rawOutputs (o : Path) : List Path :=
  [joinPath o "001.nrrd", joinPath o "dataset.json", joinPath o "plans.json",
    joinPath o "predict_from_raw_data_args.json"]

/-- Post-state of a successful inference step on the output directory: the
raw prediction `001.nrrd` was produced, and everything in the directory is
a regular file among the raw outputs. -/
def outputPostB (o : Path) (fs : FS) : Bool :=
  (match FS.lookup fs (joinPath o "001.nrrd") with
   | some (FSEntry.file _) => true
   | _ => false) &&
  fs.all (fun pe => !(inDir o pe.1) || (memB pe.1 (rawOutputs o) && isFileB pe.2))

/-- No `dataset.json` manifest anywhere under the model directory. -/
def noManifestUnder (mp : Path) (fs : FS) : Bool :=
  fs.all (fun pe => !(isDatasetJsonUnder mp pe.1 && isFileB pe.2))

/-- First directory entry directly under `d`, in store order
(`next(d for d in os.listdir(..) if os.path.isdir(..))` of predict.py). -/
def firstSubdir (fs : FS) (d : Path) : Option String :=
  goSub fs
where
  goSub : FS → Option String
    | [] => none
    | (p, e) :: rest =>
      if inDir d p && !(p.data.drop (d ++ "/").data.length).any (fun c => c = '/') &&
          (match e with | FSEntry.dir => true | _ => false) then
        some (String.mk (p.data.drop (d ++ "/").data.length))
      else goSub rest

/-- The `main()` pipeline of main.py after argument parsing, with the
registry `config` (the loaded models.json) passed in: create the model
store, look up the registry, fetch the model, stage the input, run the
inference (abstracted as `inferRun` acting on the filesystem), rename the
raw output, and delete the scratch files.  The result is the final
filesystem, context and reported segmentation path. -/
def main_pipeline (net : String → Json) (unzip : Json → List (String × Json))
    (conv : Json → Json) (inferRun : FS → Path → Path → Except Err FS)
    (fs0 : FS) (ctx0 : Ctx) (config : Json)
    (mode structure_ input output models_dir name : String) :
    Except Err (FS × Ctx × Path) × List Event :=
  let fs := FS.mkdir fs0 models_dir
  match objGet2 config mode structure_ with
  | none => (Except.error Err.keyError, [])
  | some mi =>
    match objGetStr mi "model_url", objGetStr mi "model_name" with
    | some url, some mname =>
      match download_and_extract_model_M net unzip fs ctx0 url mname models_dir with
      | (Except.error e, evs) => (Except.error e, evs)
      | (Except.ok (fs, ctx, _model_path), evs) =>
        match edit_dataset_json_M conv fs ctx input with
        | Except.error e => (Except.error e, evs)
        | Except.ok (fs, _djp, imagesTs_path) =>
          let fs := FS.mkdir fs output
          match objGet mi "model_id", objGet mi "configuration", objGet mi "fold" with
          | some _, some _, some _ =>
            let evs := evs ++ [Event.inference]
            match inferRun fs imagesTs_path output with
            | Except.error e => (Except.error e, evs)
            | Except.ok fs =>
              let prediction_file := joinPath output "001.nrrd"
              let fsSeg := rename_prediction_file_M fs prediction_file name
              let fs := cleanup_prediction_files fsSeg.1 output
              (Except.ok (fs, ctx, fsSeg.2), evs)
          | _, _, _ => (Except.error Err.keyError, evs)
    | _, _ => (Except.error Err.keyError, [])

/-- The `run_nnunet_prediction` pipeline of predict.py, with the registry
`config` passed in: create both directories, look up the registry, fetch
the model, stage the input, descend two directory levels to the trained
model, run the inference, delete the scratch files, and return the raw
output path `output_dir/001.nrrd` (no rename happens here). -/
def run_nnunet_prediction_P (net : String → Json) (unzip : Json → List (String × Json))
    (conv : Json → Json) (inferRun : FS → Path → Path → Except Err FS)
    (fs0 : FS) (ctx0 : Ctx) (config : Json)
    (mode structure_ input_path output_dir models_dir animal : String) :
    Except Err (FS × Ctx × Path) × List Event :=
  let fs := FS.mkdir (FS.mkdir fs0 models_dir) output_dir
  match objGet3 config animal mode structure_ with
  | none => (Except.error Err.keyError, [])
  | some mi =>
    match objGetStr mi "model_url", objGetStr mi "model_name" with
    | some url, some mname =>
      match download_and_extract_model_P net unzip fs ctx0 url mname models_dir with
      | (Except.error e, evs) => (Except.error e, evs)
      | (Except.ok (fs, ctx), evs) =>
        match edit_dataset_json_P conv fs ctx input_path with
        | Except.error e => (Except.error e, evs)
        | Except.ok (fs, imagesTs_path) =>
          let model_path := joinPath models_dir mname
          match firstSubdir fs model_path with
          | none => (Except.error Err.typeError, evs)
          | some d1 =>
            match firstSubdir fs (joinPath model_path d1) with
            | none => (Except.error Err.typeError, evs)
            | some _d2 =>
              match objGet mi "fold" with
              | none => (Except.error Err.keyError, evs)
              | some _ =>
                let evs := evs ++ [Event.inference]
                match inferRun fs imagesTs_path output_dir with
                | Except.error e => (Except.error e, evs)
                | Except.ok fs =>
                  let prediction_file := joinPath output_dir "001.nrrd"
                  let fs := cleanup_prediction_files fs output_dir
                  (Except.ok (fs, ctx, prediction_file), evs)
    | _, _ => (Except.error Err.keyError, [])

/-- Whether an `Except` result is a success. -/
def isOkE : Except Err α → Bool
  | Except.ok _ => true
  | Except.error _ => false

/-! ## Basic lemmas about the filesystem model -/

theorem FS.lookup_remove (fs : FS) (q p : Path) :
    FS.lookup (FS.remove fs q) p = if q = p then none else FS.lookup fs p := by
  induction fs with
  | nil => simp [FS.remove, FS.lookup]
  | cons hd tl ih =>
    obtain ⟨r, e⟩ := hd
    by_cases hrq : r = q
    · subst hrq
      by_cases hqp : r = p
      · subst hqp; simp [FS.remove, FS.lookup, ih]
      · simp [FS.remove, FS.lookup, hqp, ih]
    · by_cases hrp : r = p
      · subst hrp
        have hqp : q ≠ r := fun h => hrq h.symm
        simp [FS.remove, FS.lookup, hrq, hqp]
      · simp [FS.remove, FS.lookup, hrq, hrp, ih]

theorem FS.lookup_set (fs : FS) (q p : Path) (e : FSEntry) :
    FS.lookup (FS.set fs q e) p = if q = p then some e else FS.lookup fs p := by
  by_cases h : q = p
  · subst h; simp [FS.set, FS.lookup]
  · simp [FS.set, FS.lookup, h, FS.lookup_remove]

theorem FS.lookup_mem {fs : FS} {p : Path} {e : FSEntry}
    (h : FS.lookup fs p = some e) : (p, e) ∈ fs := by
  induction fs with
  | nil => simp [FS.lookup] at h
  | cons hd tl ih =>
    obtain ⟨q, e'⟩ := hd
    by_cases hq : q = p
    · subst hq
      simp [FS.lookup] at h
      subst h; exact List.mem_cons_self _ _
    · simp [FS.lookup, hq] at h
      exact List.mem_cons_of_mem _ (ih h)

theorem FS.remove_subset {fs : FS} {q p : Path} {e : FSEntry}
    (h : (p, e) ∈ FS.remove fs q) : (p, e) ∈ fs := by
  induction fs with
  | nil => simp [FS.remove] at h
  | cons hd tl ih =>
    obtain ⟨r, e'⟩ := hd
    by_cases hr : r = q
    · simp only [FS.remove, if_pos hr] at h
      exact List.mem_cons_of_mem _ (ih h)
    · simp only [FS.remove, if_neg hr] at h
      rcases List.mem_cons.mp h with h | h
      · exact List.mem_cons.mpr (Or.inl h)
      · exact List.mem_cons_of_mem _ (ih h)

theorem FS.pexists_of_file {fs : FS} {p : Path} {c : Json}
    (h : FS.lookup fs p = some (FSEntry.file c)) : FS.pexists fs p = true := by
  simp [FS.pexists, h]

theorem FS.lexists_of_lookup {fs : FS} {p : Path} {e : FSEntry}
    (h : FS.lookup fs p = some e) : FS.lexists fs p = true := by
  simp [FS.lexists, h]

/-! ## Basic lemmas about strings and paths -/

theorem str_data_inj {a b : String} (h : a.data = b.data) : a = b :=
  congrArg String.mk h

theorem data_append (a b : String) : (a ++ b).data = a.data ++ b.data := rfl

theorem data_joinPath (d x : Path) : (joinPath d x).data = d.data ++ '/' :: x.data := by
  simp [joinPath, data_append]

theorem joinPath_inj {d a b : Path} (h : joinPath d a = joinPath d b) : a = b := by
  have h2 : d.data ++ '/' :: a.data = d.data ++ '/' :: b.data := by
    rw [← data_joinPath, ← data_joinPath, h]
  have h3 := List.append_cancel_left h2
  exact str_data_inj (List.cons_injective h3)

theorem joinPath_ne {d a b : Path} (h : a ≠ b) : joinPath d a ≠ joinPath d b :=
  fun he => h (joinPath_inj he)

theorem listStarts_iff (l1 l2 : List Char) :
    listStarts l1 l2 = true ↔ ∃ t, l2 = l1 ++ t := by
  induction l1 generalizing l2 with
  | nil => simp [listStarts]
  | cons a as ih =>
    cases l2 with
    | nil =>
      simp only [listStarts, List.cons_append]
      constructor
      · intro h; cases h
      · rintro ⟨t, ht⟩; cases ht
    | cons b bs =>
      simp only [listStarts, Bool.and_eq_true, decide_eq_true_eq, ih, List.cons_append]
      constructor
      · rintro ⟨hab, t, ht⟩; exact ⟨t, by rw [hab, ht]⟩
      · rintro ⟨t, ht⟩
        injection ht with h1 h2
        exact ⟨h1.symm, t, h2⟩

theorem inDir_joinPath (d x : Path) : inDir d (joinPath d x) = true := by
  rw [inDir, listStarts_iff]
  refine ⟨x.data, ?_⟩
  rw [data_joinPath, data_append]
  simp

theorem dirname_joinPath (d : Path) (x : String) (h : '/' ∉ x.data) :
    dirname (joinPath d x) = d := by
  have hd : x.data.reverse.dropWhile (fun c => decide (c ≠ '/')) = [] := by
    rw [List.dropWhile_eq_nil_iff]
    intro c hc
    have hm : c ∈ x.data := List.mem_reverse.mp hc
    simp only [decide_eq_true_eq]
    exact fun he => h (he ▸ hm)
  rw [dirname, data_joinPath, List.reverse_append]
  have hassoc : ('/' :: x.data).reverse ++ d.data.reverse
      = x.data.reverse ++ ('/' :: d.data.reverse) := by simp
  rw [hassoc, List.dropWhile_append, hd]
  simp [List.dropWhile]

theorem append_revTake (name s : String) :
    (name ++ s).data.reverse.take s.data.length = s.data.reverse := by
  rw [data_append, List.reverse_append]
  rw [List.take_append_of_le_length (by simp)]
  simp

theorem append_suffix_ne (name s b : String)
    (h : s.data.reverse ≠ b.data.reverse.take s.data.length) : name ++ s ≠ b := by
  intro he
  apply h
  rw [← append_revTake name s, he]

theorem self_ne_append (a s : String) (hs : s.data ≠ []) : a ≠ a ++ s := by
  intro h
  have h2 := congrArg String.data h
  rw [data_append] at h2
  have h3 := congrArg List.length h2
  rw [List.length_append] at h3
  have : s.data.length = 0 := by omega
  exact hs (List.length_eq_zero.mp this)

theorem joinPath_ne_base (d x : String) : joinPath d x ≠ d := by
  intro h
  have h2 := congrArg String.data h
  rw [data_joinPath] at h2
  have h3 := congrArg List.length h2
  simp [List.length_append] at h3

theorem model_ne_zip (d mn : String) : joinPath d mn ≠ joinPath d (mn ++ ".zip") :=
  joinPath_ne (self_ne_append mn ".zip" (by decide))

theorem nested_ne_zip (d mn rp : String) :
    joinPath (joinPath d mn) rp ≠ joinPath d (mn ++ ".zip") := by
  intro h
  have h2 := congrArg String.data h
  rw [data_joinPath, data_joinPath, data_joinPath, data_append] at h2
  rw [List.append_assoc, List.cons_append] at h2
  have h3 := List.append_cancel_left h2
  rw [List.cons.injEq] at h3
  have h4 := List.append_cancel_left h3.2
  have h5 : (".zip" : String).data = '.' :: ['z', 'i', 'p'] := rfl
  rw [h5, List.cons.injEq] at h4
  exact absurd h4.1 (by decide)

theorem inDir_ne_zip {d mn p : String} (h : inDir (joinPath d mn) p = true) :
    p ≠ joinPath d (mn ++ ".zip") := by
  rw [inDir, listStarts_iff] at h
  obtain ⟨t, ht⟩ := h
  intro he
  subst he
  rw [data_append, data_joinPath, data_joinPath, data_append] at ht
  have hsh : ("/" : String).data = ['/'] := rfl
  rw [hsh, List.append_assoc, List.append_assoc, List.cons_append] at ht
  have h3 := List.append_cancel_left ht
  rw [List.cons.injEq] at h3
  have h4 := List.append_cancel_left h3.2
  have h5 : (".zip" : String).data = '.' :: ['z', 'i', 'p'] := rfl
  rw [h5] at h4
  rw [show ['/'] ++ t = '/' :: t from rfl, List.cons.injEq] at h4
  exact absurd h4.1 (by decide)

theorem memB_iff (p : Path) (l : List Path) : memB p l = true ↔ p ∈ l := by
  induction l with
  | nil => simp [memB]
  | cons q rest ih =>
    simp [memB, ih, List.mem_cons]

/-! ## Lemmas about the Python-dict operations -/

theorem getKV_setKV_self (kvs : List (String × Json)) (k : String) (v : Json) :
    getKV (setKV kvs k v) k = some v := by
  induction kvs with
  | nil => simp [setKV, getKV]
  | cons hd tl ih =>
    obtain ⟨k', w⟩ := hd
    by_cases h : k' = k
    · simp [setKV, getKV, h]
    · simp [setKV, getKV, h, ih]

theorem getKV_setKV_ne (kvs : List (String × Json)) (k r : String) (v : Json)
    (h : k ≠ r) : getKV (setKV kvs k v) r = getKV kvs r := by
  induction kvs with
  | nil => simp [setKV, getKV, h]
  | cons hd tl ih =>
    obtain ⟨k', w⟩ := hd
    by_cases hk : k' = k
    · subst hk
      simp [setKV, getKV, h]
    · by_cases hr : k' = r
      · simp [setKV, getKV, hk, hr, show ¬r = k from fun he => h he.symm]
      · simp [setKV, getKV, hk, hr, ih]

theorem getKV_delKV_self (kvs : List (String × Json)) (k : String) :
    getKV (delKV kvs k) k = none := by
  induction kvs with
  | nil => simp [delKV, getKV]
  | cons hd tl ih =>
    obtain ⟨k', w⟩ := hd
    by_cases h : k' = k
    · simp [delKV, getKV, h, ih]
    · simp [delKV, getKV, h, ih]

theorem getKV_delKV_ne (kvs : List (String × Json)) (k r : String) (h : k ≠ r) :
    getKV (delKV kvs k) r = getKV kvs r := by
  induction kvs with
  | nil => simp [delKV, getKV]
  | cons hd tl ih =>
    obtain ⟨k', w⟩ := hd
    by_cases hk : k' = k
    · subst hk
      have hr : k' ≠ r := h
      simp [delKV, getKV, hr, ih]
    · by_cases hr : k' = r
      · simp [delKV, getKV, hk, hr, show ¬r = k from fun he => h he.symm]
      · simp [delKV, getKV, hk, hr, ih]

/-! ## Lemmas about the label cache (C10 infrastructure) -/

theorem lookupI_dictInsert (m : List (Int × String)) (i k : Int) (n : String) :
    lookupI (dictInsert m i n) k = if i = k then some n else lookupI m k := by
  induction m with
  | nil => simp [dictInsert, lookupI]
  | cons hd tl ih =>
    obtain ⟨k', v'⟩ := hd
    by_cases hki : k' = i
    · subst hki
      by_cases hik : k' = k
      · simp [dictInsert, lookupI, hik]
      · simp [dictInsert, lookupI, hik]
    · by_cases hkk : k' = k
      · subst hkk
        have hik : i ≠ k' := fun h => hki h.symm
        simp [dictInsert, lookupI, hki, hik]
      · simp [dictInsert, lookupI, hki, hkk, ih]

theorem lookupI_eq_none (m : List (Int × String)) (i : Int) :
    lookupI m i = none ↔ i ∉ m.map (fun e => e.1) := by
  induction m with
  | nil => simp [lookupI]
  | cons hd tl ih =>
    obtain ⟨k', v'⟩ := hd
    by_cases h : k' = i
    · simp [lookupI, h]
    · rw [show lookupI ((k', v') :: tl) i = lookupI tl i by simp [lookupI, h], ih]
      simp only [List.map_cons, List.mem_cons]
      constructor
      · intro hn hor
        rcases hor with he | hm
        · exact h he.symm
        · exact hn hm
      · intro hn hm
        exact hn (Or.inr hm)

theorem keys_dictInsert (m : List (Int × String)) (i : Int) (n : String) :
    (dictInsert m i n).map (fun e => e.1) =
      if (lookupI m i).isSome then m.map (fun e => e.1)
      else m.map (fun e => e.1) ++ [i] := by
  induction m with
  | nil => simp [dictInsert, lookupI]
  | cons hd tl ih =>
    obtain ⟨k', v'⟩ := hd
    by_cases h : k' = i
    · simp [dictInsert, lookupI, h]
    · by_cases hs : (lookupI tl i).isSome
      · simp [dictInsert, lookupI, h, ih, hs]
      · simp [dictInsert, lookupI, h, ih, hs]

theorem nodupKeys_dictInsert {m : List (Int × String)}
    (h : (m.map (fun e => e.1)).Nodup) (i : Int) (n : String) :
    ((dictInsert m i n).map (fun e => e.1)).Nodup := by
  rw [keys_dictInsert]
  by_cases hs : (lookupI m i).isSome
  · simp [hs, h]
  · have hni : i ∉ m.map (fun e => e.1) :=
      (lookupI_eq_none m i).mp (Option.not_isSome_iff_eq_none.mp hs)
    simp only [hs, if_false]
    rw [← List.concat_eq_append]
    exact h.concat hni

theorem cacheStep_lookup (raw : List (String × Int)) :
    ∀ (acc : List (Int × String)) (k : Int) (v : String),
      lookupI (raw.foldl (fun m kv => if 0 < kv.2 then dictInsert m kv.2 kv.1 else m) acc) k
          = some v →
        lookupI acc k = some v ∨ ((v, k) ∈ raw ∧ 0 < k) := by
  induction raw with
  | nil => intro acc k v h; exact Or.inl h
  | cons kv rest ih =>
    intro acc k v h
    rw [List.foldl_cons] at h
    rcases ih _ k v h with h2 | h2
    · by_cases hp : 0 < kv.2
      · rw [if_pos hp, lookupI_dictInsert] at h2
        by_cases hik : kv.2 = k
        · rw [if_pos hik] at h2
          refine Or.inr ⟨?_, hik ▸ hp⟩
          obtain rfl : kv.1 = v := Option.some_injective _ h2
          exact hik ▸ List.mem_cons_self kv rest
        · rw [if_neg hik] at h2
          exact Or.inl h2
      · rw [if_neg hp] at h2
        exact Or.inl h2
    · exact Or.inr ⟨List.mem_cons_of_mem _ h2.1, h2.2⟩

theorem cacheStep_keeps (raw : List (String × Int)) :
    ∀ (acc : List (Int × String)) (k : Int),
      (lookupI acc k).isSome = true →
      (lookupI (raw.foldl (fun m kv => if 0 < kv.2 then dictInsert m kv.2 kv.1 else m) acc)
          k).isSome = true := by
  induction raw with
  | nil => intro acc k h; exact h
  | cons kv rest ih =>
    intro acc k h
    rw [List.foldl_cons]
    apply ih
    by_cases hp : 0 < kv.2
    · rw [if_pos hp, lookupI_dictInsert]
      by_cases hik : kv.2 = k
      · simp [hik]
      · simpa [hik] using h
    · simpa [hp] using h

theorem cacheStep_complete (raw : List (String × Int)) :
    ∀ (acc : List (Int × String)) (name : String) (k : Int),
      (name, k) ∈ raw → 0 < k →
      (lookupI (raw.foldl (fun m kv => if 0 < kv.2 then dictInsert m kv.2 kv.1 else m) acc)
          k).isSome = true := by
  induction raw with
  | nil => intro acc name k h; simp at h
  | cons kv rest ih =>
    intro acc name k hmem hk
    rw [List.foldl_cons]
    rcases List.mem_cons.mp hmem with h | h
    · apply cacheStep_keeps
      rw [show kv = (name, k) from h.symm, if_pos hk, lookupI_dictInsert]
      simp
    · exact ih _ name k h hk

theorem cacheStep_nodup (raw : List (String × Int)) :
    ∀ (acc : List (Int × String)), ((acc.map (fun e => e.1)).Nodup) →
      ((raw.foldl (fun m kv => if 0 < kv.2 then dictInsert m kv.2 kv.1 else m) acc).map
          (fun e => e.1)).Nodup := by
  induction raw with
  | nil => intro acc h; exact h
  | cons kv rest ih =>
    intro acc h
    rw [List.foldl_cons]
    apply ih
    by_cases hp : 0 < kv.2
    · rw [if_pos hp]
      exact nodupKeys_dictInsert h kv.2 kv.1
    · rw [if_neg hp]
      exact h

/-- Claim C10: the label cache built by `download_and_extract_model` (both
modules) from the manifest's `"labels"` map contains exactly the labels
whose integer value is strictly positive, keyed by that value — non-positive
values (in particular background 0) are excluded — and equal integer values
collapse to a single entry (the key list has no duplicates). -/
theorem claim_C10_label_cache (raw : List (String × Int)) :
    (∀ k v, lookupI (buildLabelCache raw) k = some v → 0 < k ∧ (v, k) ∈ raw) ∧
    (∀ name k, (name, k) ∈ raw → 0 < k → (lookupI (buildLabelCache raw) k).isSome = true) ∧
    ((buildLabelCache raw).map (fun e => e.1)).Nodup := by
  refine ⟨?_, ?_, ?_⟩
  · intro k v h
    rcases cacheStep_lookup raw [] k v h with h2 | h2
    · simp [lookupI] at h2
    · exact ⟨h2.2, h2.1⟩
  · intro name k hmem hk
    exact cacheStep_complete raw [] name k hmem hk
  · exact cacheStep_nodup raw [] (by simp)

/-- Witness for C10 at a concrete label map: `background ↦ 0` is dropped,
and the two labels with value 1 collapse to the later one. -/
theorem claim_C10_label_cache_witness :
    (0 : Int) < 1 ∧ ("airway", (1 : Int)) ∈
      [("background", (0 : Int)), ("lung", 1), ("airway", 1)] :=
  (claim_C10_label_cache [("background", (0 : Int)), ("lung", 1), ("airway", 1)]).1
    1 "airway" (by rfl)

/-! ## Further filesystem support lemmas -/

theorem FS.lookup_mkdir_of_lookup {fs : FS} {p : Path} {e : FSEntry}
    (h : FS.lookup fs p = some e) (q : Path) :
    FS.lookup (FS.mkdir fs q) p = some e := by
  rw [FS.mkdir]
  by_cases hq : FS.lexists fs q
  · rw [if_pos hq]; exact h
  · rw [if_neg hq, FS.lookup_set]
    have hne : q ≠ p := fun he => hq (by rw [he]; exact FS.lexists_of_lookup h)
    rw [if_neg hne]
    exact h

theorem FS.readFile_writeFile_self (fs : FS) (p : Path) (c : Json) :
    FS.readFile (FS.writeFile fs p c) p = some c := by
  rw [FS.writeFile]
  cases hl : FS.lookup fs p with
  | none => simp [FS.readFile, FS.lookup_set]
  | some e =>
    cases e with
    | file c' => simp [FS.readFile, FS.lookup_set]
    | dir => simp [FS.readFile, FS.lookup_set]
    | symlink t =>
      by_cases hpt : p = t
      · subst hpt; simp [FS.readFile, FS.lookup_set]
      · have htp : (t = p) = False := eq_false (fun h => hpt h.symm)
        simp [FS.readFile, FS.lookup_set, hl, htp]

theorem FS.lexists_writeFile_self (fs : FS) (p : Path) (c : Json) :
    FS.lexists (FS.writeFile fs p c) p = true := by
  rw [FS.writeFile]
  cases hl : FS.lookup fs p with
  | none => simp [FS.lexists, FS.lookup_set]
  | some e =>
    cases e with
    | file c' => simp [FS.lexists, FS.lookup_set]
    | dir => simp [FS.lexists, FS.lookup_set]
    | symlink t =>
      by_cases hpt : p = t
      · subst hpt; simp [FS.lexists, FS.lookup_set]
      · have htp : (t = p) = False := eq_false (fun h => hpt h.symm)
        simp [FS.lexists, FS.lookup_set, hl, htp]

theorem FS.lexists_writeFile_of_lexists {fs : FS} {p : Path}
    (h : FS.lexists fs p = true) (q : Path) (c : Json) :
    FS.lexists (FS.writeFile fs q c) p = true := by
  rw [FS.writeFile]
  cases FS.lookup fs q with
  | none => simp [FS.lexists, FS.lookup_set]; rcases Bool.eq_false_or_eq_true (decide (q = p)) with hd | hd <;> simp_all [FS.lexists]
  | some e =>
    cases e with
    | file c' => simp only [FS.lexists, FS.lookup_set]; split <;> simp_all [FS.lexists]
    | dir => simp only [FS.lexists, FS.lookup_set]; split <;> simp_all [FS.lexists]
    | symlink t => simp only [FS.lexists, FS.lookup_set]; split <;> simp_all [FS.lexists]

theorem FS.lookup_writeFile_ne_of_plain {fs : FS} {q : Path}
    (hq : ∀ t, FS.lookup fs q ≠ some (FSEntry.symlink t)) (c : Json) {p : Path}
    (hp : q ≠ p) : FS.lookup (FS.writeFile fs q c) p = FS.lookup fs p := by
  rw [FS.writeFile]
  cases hl : FS.lookup fs q with
  | none => rw [FS.lookup_set, if_neg hp]
  | some e =>
    cases e with
    | file c' => rw [FS.lookup_set, if_neg hp]
    | dir => rw [FS.lookup_set, if_neg hp]
    | symlink t => exact absurd hl (hq t)

/-- One scratch-deletion step of `cleanup_prediction_files`. -/
theorem cleanupStep_lookup (fs : FS) (q p : Path) :
    FS.lookup (if FS.pexists fs q then FS.remove fs q else fs) p
      = if q = p then (if FS.pexists fs q then none else FS.lookup fs p)
        else FS.lookup fs p := by
  by_cases hq : FS.pexists fs q
  · rw [if_pos hq, FS.lookup_remove]
    by_cases hqp : q = p
    · rw [if_pos hqp, if_pos hqp, if_pos hq]
    · rw [if_neg hqp, if_neg hqp]
  · rw [if_neg hq]
    by_cases hqp : q = p
    · rw [if_pos hqp, if_neg hq]
    · rw [if_neg hqp]

theorem cleanupStep_self_none {fs : FS} {q : Path}
    (hfile : ∀ e, FS.lookup fs q = some e → ∃ c, e = FSEntry.file c) :
    FS.lookup (if FS.pexists fs q then FS.remove fs q else fs) q = none := by
  by_cases hq : FS.pexists fs q
  · rw [if_pos hq, FS.lookup_remove, if_pos rfl]
  · rw [if_neg hq]
    cases hl : FS.lookup fs q with
    | none => rfl
    | some e =>
      obtain ⟨c, rfl⟩ := hfile e hl
      rw [FS.pexists, hl] at hq
      simp at hq

/-! ## Claim C3 -/

/-- Claim C3 (amended): when the prediction file does not exist, both
`rename_prediction_file` implementations print a warning and leave the
filesystem unchanged; main.py's returns the original (non-existent)
prediction path, while predict.py's has no return statement and thus
returns `None`. -/
theorem claim_C3_rename_missing (fs : FS) (p : Path) (n : String)
    (h : FS.pexists fs p = false) :
    rename_prediction_file_M fs p n = (fs, p) ∧
    rename_prediction_file_P fs p n = (fs, none) := by
  constructor
  · simp [rename_prediction_file_M, h]
  · simp [rename_prediction_file_P, h]

/-- Witness for C3 on an empty filesystem. -/
theorem claim_C3_rename_missing_witness :
    rename_prediction_file_M [] "out/001.nrrd" "seg" = ([], "out/001.nrrd") ∧
    rename_prediction_file_P [] "out/001.nrrd" "seg" = ([], none) :=
  claim_C3_rename_missing [] "out/001.nrrd" "seg" (by rfl)

/-- Counterexample for C3 as stated: predict.py's `rename_prediction_file`
does not return the original prediction path on the missing-file branch
(it returns `None`). -/
theorem claim_C3_cex :
    (rename_prediction_file_P [] "out/001.nrrd" "seg").2 ≠ some "out/001.nrrd" := by
  simp [rename_prediction_file_P, FS.pexists, FS.lookup]

/-! ## Extraction and walk lemmas (C2, C8, C9 infrastructure) -/

theorem foldl_set_lookup_notin {mp p : Path} {es : List (String × Json)}
    (hmem : ∀ rp, p ≠ joinPath mp rp) :
    ∀ fs : FS,
      FS.lookup (es.foldl (fun fs e => FS.set fs (joinPath mp e.1) (FSEntry.file e.2)) fs) p
        = FS.lookup fs p := by
  induction es with
  | nil => intro fs; rfl
  | cons e rest ih =>
    intro fs
    rw [List.foldl_cons, ih, FS.lookup_set, if_neg (fun he => hmem e.1 he.symm)]

theorem foldl_set_keeps {mp p : Path} {es : List (String × Json)} :
    ∀ fs : FS, FS.lexists fs p = true →
      FS.lexists (es.foldl (fun fs e => FS.set fs (joinPath mp e.1) (FSEntry.file e.2)) fs) p
        = true := by
  induction es with
  | nil => intro fs h; exact h
  | cons e rest ih =>
    intro fs h
    rw [List.foldl_cons]
    apply ih
    rw [FS.lexists, FS.lookup_set]
    by_cases he : joinPath mp e.1 = p
    · rw [if_pos he]; rfl
    · rw [if_neg he]; exact h

theorem extractAll_lookup_notin {fs : FS} {mp p : Path} {es : List (String × Json)}
    (hne : p ≠ mp) (hmem : ∀ rp, p ≠ joinPath mp rp) :
    FS.lookup (extractAll fs mp es) p = FS.lookup fs p := by
  rw [extractAll, foldl_set_lookup_notin hmem, FS.lookup_set,
    if_neg (fun he => hne he.symm)]

theorem extractAll_staged {es : List (String × Json)} {rp : String} {cj : Json}
    (hmem : (rp, cj) ∈ es) (fs : FS) (mp : Path) :
    FS.lexists (extractAll fs mp es) (joinPath mp rp) = true := by
  rw [extractAll]
  generalize FS.set fs mp FSEntry.dir = fs0
  induction es generalizing fs0 with
  | nil => simp at hmem
  | cons e rest ih =>
    rw [List.foldl_cons]
    rcases List.mem_cons.mp hmem with h | h
    · apply foldl_set_keeps
      rw [show e = (rp, cj) from h.symm, FS.lexists, FS.lookup_set, if_pos rfl]
      rfl
    · exact ih h _

theorem extractAll_root_dir (fs : FS) (mp : Path) (es : List (String × Json)) :
    FS.lookup (extractAll fs mp es) mp = some FSEntry.dir := by
  rw [extractAll, foldl_set_lookup_notin (fun rp he => joinPath_ne_base mp rp he.symm),
    FS.lookup_set, if_pos rfl]

theorem walkGo_none {mp : Path} {l : FS} (h : noManifestUnder mp l = true) :
    walkGo mp l = none := by
  induction l with
  | nil => rfl
  | cons hd tl ih =>
    obtain ⟨p, e⟩ := hd
    rw [noManifestUnder, List.all_cons, Bool.and_eq_true] at h
    obtain ⟨h1, h2⟩ := h
    have hcond : (isDatasetJsonUnder mp p && isFileB e) = false := by
      rcases hc : (isDatasetJsonUnder mp p && isFileB e) with _ | _
      · rfl
      · rw [hc] at h1; exact absurd h1 (by decide)
    rw [walkGo, if_neg (by rw [hcond]; exact Bool.false_ne_true)]
    exact ih h2

theorem noManifest_remove {mp q : Path} {fs : FS} (h : noManifestUnder mp fs = true) :
    noManifestUnder mp (FS.remove fs q) = true := by
  rw [noManifestUnder, List.all_eq_true] at h ⊢
  intro pe hmem
  exact h pe (FS.remove_subset hmem)

/-- Successful runs of main.py's `download_and_extract_model` return the
fetched filesystem, the model path and the fetch events unchanged. -/
theorem download_M_ok {net : String → Json} {unzip : Json → List (String × Json)}
    {fs : FS} {ctx : Ctx} {url mname ddir : String} {fs' : FS} {c : Ctx} {mp : Path}
    {evs : List Event}
    (h : download_and_extract_model_M net unzip fs ctx url mname ddir
        = (Except.ok (fs', c, mp), evs)) :
    fs' = fetchedFS net unzip fs url (joinPath ddir mname) (joinPath ddir (mname ++ ".zip")) ∧
    mp = joinPath ddir mname ∧
    evs = fetchEvents fs url (joinPath ddir mname) (joinPath ddir (mname ++ ".zip")) := by
  simp only [download_and_extract_model_M] at h
  split at h
  · simp at h
  · rw [Prod.mk.injEq] at h
    obtain ⟨h1, h2⟩ := h
    split at h1
    · simp at h1
    · simp only [Except.ok.injEq, Prod.mk.injEq] at h1
      exact ⟨h1.1.symm, h1.2.2.symm, h2.symm⟩
  · rw [Prod.mk.injEq] at h
    obtain ⟨h1, h2⟩ := h
    split at h1
    · simp at h1
    · simp only [Except.ok.injEq, Prod.mk.injEq] at h1
      exact ⟨h1.1.symm, h1.2.2.symm, h2.symm⟩

/-- Successful runs of predict.py's `download_and_extract_model` return the
fetched-and-cleaned filesystem and the fetch events unchanged. -/
theorem download_P_ok {net : String → Json} {unzip : Json → List (String × Json)}
    {fs : FS} {ctx : Ctx} {url mname ddir : String} {fs' : FS} {c : Ctx}
    {evs : List Event}
    (h : download_and_extract_model_P net unzip fs ctx url mname ddir
        = (Except.ok (fs', c), evs)) :
    fs' = fetchedCleanFS net unzip fs url (joinPath ddir mname)
        (joinPath ddir (mname ++ ".zip")) ∧
    evs = fetchEvents fs url (joinPath ddir mname) (joinPath ddir (mname ++ ".zip")) := by
  simp only [download_and_extract_model_P] at h
  split at h
  · simp at h
  · rw [Prod.mk.injEq] at h
    obtain ⟨h1, h2⟩ := h
    split at h1
    · simp at h1
    · simp only [Except.ok.injEq, Prod.mk.injEq] at h1
      exact ⟨h1.1.symm, h2.symm⟩

/-! ## Claim C2 -/

/-- Claim C2 (amended): for an absent model directory, both
`download_and_extract_model` implementations download the archive and
extract it, leaving the model directory present and populated with every
archive member; predict.py then removes the archive file, but main.py
leaves `model_name.zip` on disk. -/
theorem claim_C2_download_extract (net : String → Json) (unzip : Json → List (String × Json))
    (fs : FS) (ctx : Ctx) (url mname ddir : String)
    (habs : FS.pexists fs (joinPath ddir mname) = false) :
    (∀ fs' c mp evs,
      download_and_extract_model_M net unzip fs ctx url mname ddir
          = (Except.ok (fs', c, mp), evs) →
      FS.pexists fs' (joinPath ddir mname) = true ∧
      (∀ rp cj, (rp, cj) ∈ unzip (net url) →
        FS.lexists fs' (joinPath (joinPath ddir mname) rp) = true) ∧
      FS.lexists fs' (joinPath ddir (mname ++ ".zip")) = true ∧
      evs = [Event.download url,
        Event.extract (joinPath ddir (mname ++ ".zip")) (joinPath ddir mname)]) ∧
    (∀ fs' c evs,
      download_and_extract_model_P net unzip fs ctx url mname ddir
          = (Except.ok (fs', c), evs) →
      FS.pexists fs' (joinPath ddir mname) = true ∧
      (∀ rp cj, (rp, cj) ∈ unzip (net url) →
        FS.lexists fs' (joinPath (joinPath ddir mname) rp) = true) ∧
      FS.lexists fs' (joinPath ddir (mname ++ ".zip")) = false ∧
      evs = [Event.download url,
        Event.extract (joinPath ddir (mname ++ ".zip")) (joinPath ddir mname)]) := by
  set mp := joinPath ddir mname with hmpdef
  set zp := joinPath ddir (mname ++ ".zip") with hzpdef
  have hzp_ne_mp : zp ≠ mp := fun he => model_ne_zip ddir mname he.symm
  have hzp_ne_nested : ∀ rp, zp ≠ joinPath mp rp :=
    fun rp he => nested_ne_zip ddir mname rp he.symm
  have hfetch : fetchedFS net unzip fs url mp zp
      = extractAll (FS.set fs zp (FSEntry.file (net url))) mp (unzip (net url)) := by
    rw [fetchedFS, habs]
    simp
  have hevs : fetchEvents fs url mp zp = [Event.download url, Event.extract zp mp] := by
    rw [fetchEvents, habs]
    simp
  set fse := extractAll (FS.set fs zp (FSEntry.file (net url))) mp (unzip (net url))
    with hfsedef
  have hfse_mp : FS.lookup fse mp = some FSEntry.dir := extractAll_root_dir _ _ _
  have hfse_pex : FS.pexists fse mp = true := by rw [FS.pexists, hfse_mp]
  have hfse_staged : ∀ rp cj, (rp, cj) ∈ unzip (net url) →
      FS.lexists fse (joinPath mp rp) = true :=
    fun rp cj hm => extractAll_staged hm _ _
  have hfse_zip : FS.lookup fse zp = some (FSEntry.file (net url)) := by
    rw [hfsedef, extractAll_lookup_notin hzp_ne_mp hzp_ne_nested, FS.lookup_set, if_pos rfl]
  have hfse_zip_pex : FS.pexists fse zp = true := FS.pexists_of_file hfse_zip
  constructor
  · intro fs' c mp' evs h
    obtain ⟨hfs', hmp', hevs'⟩ := download_M_ok h
    rw [← hmpdef, ← hzpdef, hfetch] at hfs'
    rw [← hmpdef, ← hzpdef, hevs] at hevs'
    subst hfs'
    exact ⟨hfse_pex, hfse_staged, FS.lexists_of_lookup hfse_zip, hevs'⟩
  · intro fs' c evs h
    obtain ⟨hfs', hevs'⟩ := download_P_ok h
    rw [← hmpdef, ← hzpdef] at hfs'
    rw [← hmpdef, ← hzpdef, hevs] at hevs'
    have hclean : fetchedCleanFS net unzip fs url mp zp = FS.remove fse zp := by
      rw [fetchedCleanFS]
      simp only [hfetch, ← hfsedef, hfse_zip_pex, if_true]
    rw [hclean] at hfs'
    subst hfs'
    refine ⟨?_, ?_, ?_, hevs'⟩
    · rw [FS.pexists, FS.lookup_remove, if_neg hzp_ne_mp, hfse_mp]
    · intro rp cj hm
      rw [FS.lexists, FS.lookup_remove, if_neg (hzp_ne_nested rp)]
      exact hfse_staged rp cj hm
    · rw [FS.lexists, FS.lookup_remove, if_pos rfl]
      rfl

/-- Witness for C2 on a concrete empty store: after main.py's download the
model directory is present, the archive member is staged, and the archive
file is still on disk. -/
theorem claim_C2_download_extract_witness :
    FS.pexists
        [("models/m/dataset.json",
            FSEntry.file (Json.obj [("labels", Json.obj [("bg", Json.num 0)])])),
          ("models/m", FSEntry.dir),
          ("models/m.zip", FSEntry.file (Json.str "blob"))] "models/m" = true ∧
    FS.lexists
        [("models/m/dataset.json",
            FSEntry.file (Json.obj [("labels", Json.obj [("bg", Json.num 0)])])),
          ("models/m", FSEntry.dir),
          ("models/m.zip", FSEntry.file (Json.str "blob"))]
        (joinPath (joinPath "models" "m") "dataset.json") = true ∧
    FS.lexists
        [("models/m/dataset.json",
            FSEntry.file (Json.obj [("labels", Json.obj [("bg", Json.num 0)])])),
          ("models/m", FSEntry.dir),
          ("models/m.zip", FSEntry.file (Json.str "blob"))] "models/m.zip" = true := by
  have H := (claim_C2_download_extract (fun _ => Json.str "blob")
      (fun _ => [("dataset.json", Json.obj [("labels", Json.obj [("bg", Json.num 0)])])])
      [] freshCtx "u" "m" "models" (by rfl)).1
      [("models/m/dataset.json",
          FSEntry.file (Json.obj [("labels", Json.obj [("bg", Json.num 0)])])),
        ("models/m", FSEntry.dir),
        ("models/m.zip", FSEntry.file (Json.str "blob"))]
      ⟨some "models/m/dataset.json", some []⟩ "models/m"
      [Event.download "u", Event.extract "models/m.zip" "models/m"] (by rfl)
  exact ⟨H.1,
    H.2.1 "dataset.json" (Json.obj [("labels", Json.obj [("bg", Json.num 0)])])
      (List.mem_cons_self _ _),
    H.2.2.1⟩

/-- Counterexample for C2 as stated: after a successful absent-model run of
main.py's `download_and_extract_model`, the archive file `m.zip` still
exists on disk (main.py never deletes it). -/
theorem claim_C2_cex :
    download_and_extract_model_M (fun _ => Json.str "blob")
        (fun _ => [("dataset.json", Json.obj [("labels", Json.obj [("bg", Json.num 0)])])])
        [] freshCtx "u" "m" "models"
      = (Except.ok
          ([("models/m/dataset.json",
              FSEntry.file (Json.obj [("labels", Json.obj [("bg", Json.num 0)])])),
            ("models/m", FSEntry.dir),
            ("models/m.zip", FSEntry.file (Json.str "blob"))],
           (⟨some "models/m/dataset.json", some []⟩ : Ctx), "models/m"),
         [Event.download "u", Event.extract "models/m.zip" "models/m"]) ∧
    FS.lexists
        [("models/m/dataset.json",
            FSEntry.file (Json.obj [("labels", Json.obj [("bg", Json.num 0)])])),
          ("models/m", FSEntry.dir),
          ("models/m.zip", FSEntry.file (Json.str "blob"))] "models/m.zip" = true :=
  ⟨rfl, rfl⟩

/-! ## Claims C9 and C8 -/

theorem download_M_evs (net : String → Json) (unzip : Json → List (String × Json))
    (fs : FS) (ctx : Ctx) (url mname ddir : String) :
    (download_and_extract_model_M net unzip fs ctx url mname ddir).2
      = fetchEvents fs url (joinPath ddir mname) (joinPath ddir (mname ++ ".zip")) := by
  simp only [download_and_extract_model_M]
  split <;> rfl

theorem download_P_evs (net : String → Json) (unzip : Json → List (String × Json))
    (fs : FS) (ctx : Ctx) (url mname ddir : String) :
    (download_and_extract_model_P net unzip fs ctx url mname ddir).2
      = fetchEvents fs url (joinPath ddir mname) (joinPath ddir (mname ++ ".zip")) := by
  simp only [download_and_extract_model_P]
  split <;> rfl

/-- Claim C9: for a model directory that is already present, neither
implementation downloads or extracts anything (the event trace is empty,
whatever happens afterwards); main.py's filesystem is returned untouched
on success, and predict.py leaves every entry of the model directory
exactly as it was (it may only delete a stale sibling archive file). -/
theorem claim_C9_present_no_download (net : String → Json)
    (unzip : Json → List (String × Json)) (fs : FS) (ctx : Ctx) (url mname ddir : String)
    (hpres : FS.pexists fs (joinPath ddir mname) = true) :
    ((download_and_extract_model_M net unzip fs ctx url mname ddir).2 = [] ∧
      ∀ fs' c mp evs,
        download_and_extract_model_M net unzip fs ctx url mname ddir
            = (Except.ok (fs', c, mp), evs) → fs' = fs) ∧
    ((download_and_extract_model_P net unzip fs ctx url mname ddir).2 = [] ∧
      ∀ fs' c evs,
        download_and_extract_model_P net unzip fs ctx url mname ddir
            = (Except.ok (fs', c), evs) →
          ∀ p, inDir (joinPath ddir mname) p = true ∨ p = joinPath ddir mname →
            FS.lookup fs' p = FS.lookup fs p) := by
  have hfetch : fetchedFS net unzip fs url (joinPath ddir mname)
      (joinPath ddir (mname ++ ".zip")) = fs := by
    rw [fetchedFS, hpres]
    simp
  have hevs : fetchEvents fs url (joinPath ddir mname) (joinPath ddir (mname ++ ".zip"))
      = [] := by
    rw [fetchEvents, hpres]
    simp
  refine ⟨⟨?_, ?_⟩, ?_, ?_⟩
  · rw [download_M_evs, hevs]
  · intro fs' c mp evs h
    obtain ⟨hfs', -, -⟩ := download_M_ok h
    rw [hfs', hfetch]
  · rw [download_P_evs, hevs]
  · intro fs' c evs h p hp
    obtain ⟨hfs', -⟩ := download_P_ok h
    rw [hfs', fetchedCleanFS]
    simp only [hfetch]
    have hpzp : joinPath ddir (mname ++ ".zip") ≠ p := by
      rcases hp with hp | hp
      · exact fun he => inDir_ne_zip hp he.symm
      · rw [hp]
        exact fun he => model_ne_zip ddir mname he.symm
    by_cases hzp : FS.pexists fs (joinPath ddir (mname ++ ".zip")) = true
    · rw [if_pos hzp, FS.lookup_remove, if_neg hpzp]
    · rw [if_neg hzp]

/-- Witness for C9 on a concrete store with the model present: the trace is
empty and main.py's success leaves the filesystem untouched. -/
theorem claim_C9_present_no_download_witness :
    (download_and_extract_model_M (fun _ => Json.str "blob") (fun _ => [])
        [("models/m", FSEntry.dir),
          ("models/m/dataset.json", FSEntry.file (Json.obj [("labels", Json.obj [])]))]
        freshCtx "u" "m" "models").2 = [] ∧
    [("models/m", FSEntry.dir),
      ("models/m/dataset.json", FSEntry.file (Json.obj [("labels", Json.obj [])]))]
      = ([("models/m", FSEntry.dir),
          ("models/m/dataset.json", FSEntry.file (Json.obj [("labels", Json.obj [])]))] : FS) := by
  have H := claim_C9_present_no_download (fun _ => Json.str "blob") (fun _ => [])
    [("models/m", FSEntry.dir),
      ("models/m/dataset.json", FSEntry.file (Json.obj [("labels", Json.obj [])]))]
    freshCtx "u" "m" "models" (by rfl)
  refine ⟨H.1.1, ?_⟩
  exact H.1.2
    [("models/m", FSEntry.dir),
      ("models/m/dataset.json", FSEntry.file (Json.obj [("labels", Json.obj [])]))]
    ⟨some "models/m/dataset.json", some []⟩ "models/m" [] (by rfl)

theorem download_M_err_noManifest (net : String → Json) (unzip : Json → List (String × Json))
    (fs : FS) (ctx : Ctx) (url mname ddir : String)
    (hpres : FS.pexists fs (joinPath ddir mname) = true)
    (hnm : noManifestUnder (joinPath ddir mname) fs = true)
    (hctx : ctx.dataset_json_path = none) :
    download_and_extract_model_M net unzip fs ctx url mname ddir
      = (Except.error Err.fileNotFound, []) := by
  have hfetch : fetchedFS net unzip fs url (joinPath ddir mname)
      (joinPath ddir (mname ++ ".zip")) = fs := by
    rw [fetchedFS, hpres]; simp
  have hevs : fetchEvents fs url (joinPath ddir mname) (joinPath ddir (mname ++ ".zip"))
      = [] := by
    rw [fetchEvents, hpres]; simp
  have hw : walkFindDatasetJson fs (joinPath ddir mname) = none := walkGo_none hnm
  simp only [download_and_extract_model_M, hfetch, hevs, hw, hctx]

theorem download_P_err_noManifest (net : String → Json) (unzip : Json → List (String × Json))
    (fs : FS) (ctx : Ctx) (url mname ddir : String)
    (hpres : FS.pexists fs (joinPath ddir mname) = true)
    (hnm : noManifestUnder (joinPath ddir mname) fs = true) :
    download_and_extract_model_P net unzip fs ctx url mname ddir
      = (Except.error Err.fileNotFound, []) := by
  have hfetch : fetchedFS net unzip fs url (joinPath ddir mname)
      (joinPath ddir (mname ++ ".zip")) = fs := by
    rw [fetchedFS, hpres]; simp
  have hevs : fetchEvents fs url (joinPath ddir mname) (joinPath ddir (mname ++ ".zip"))
      = [] := by
    rw [fetchEvents, hpres]; simp
  by_cases hzp : FS.pexists fs (joinPath ddir (mname ++ ".zip")) = true
  · have hclean : fetchedCleanFS net unzip fs url (joinPath ddir mname)
        (joinPath ddir (mname ++ ".zip"))
        = FS.remove fs (joinPath ddir (mname ++ ".zip")) := by
      rw [fetchedCleanFS]
      simp only [hfetch, hzp, if_true]
    have hw : walkFindDatasetJson (FS.remove fs (joinPath ddir (mname ++ ".zip")))
        (joinPath ddir mname) = none := walkGo_none (noManifest_remove hnm)
    simp only [download_and_extract_model_P, hclean, hevs, hw]
  · have hclean : fetchedCleanFS net unzip fs url (joinPath ddir mname)
        (joinPath ddir (mname ++ ".zip")) = fs := by
      rw [fetchedCleanFS]
      simp only [hfetch, hzp, if_false]
      simp [hzp]
    have hw : walkFindDatasetJson fs (joinPath ddir mname) = none := walkGo_none hnm
    simp only [download_and_extract_model_P, hclean, hevs, hw]

/-- Claim C8: when the (present) model directory tree contains no
`dataset.json` anywhere under it, both pipelines raise `FileNotFoundError`
from the manifest lookup (main.py inside `download_and_extract_model`,
predict.py from `find_dataset_json`), with an empty trace: the run stops
before staging and before any inference. -/
theorem claim_C8_missing_manifest :
    (∀ net unzip conv inferRun fs0 config mode structure_ input output models_dir name
        mi url mname,
      objGet2 config mode structure_ = some mi →
      objGetStr mi "model_url" = some url →
      objGetStr mi "model_name" = some mname →
      FS.pexists (FS.mkdir fs0 models_dir) (joinPath models_dir mname) = true →
      noManifestUnder (joinPath models_dir mname) (FS.mkdir fs0 models_dir) = true →
      main_pipeline net unzip conv inferRun fs0 freshCtx config mode structure_ input output
        models_dir name = (Except.error Err.fileNotFound, [])) ∧
    (∀ net unzip conv inferRun fs0 ctx0 config mode structure_ input_path output_dir
        models_dir animal mi url mname,
      objGet3 config animal mode structure_ = some mi →
      objGetStr mi "model_url" = some url →
      objGetStr mi "model_name" = some mname →
      FS.pexists (FS.mkdir (FS.mkdir fs0 models_dir) output_dir)
        (joinPath models_dir mname) = true →
      noManifestUnder (joinPath models_dir mname)
        (FS.mkdir (FS.mkdir fs0 models_dir) output_dir) = true →
      run_nnunet_prediction_P net unzip conv inferRun fs0 ctx0 config mode structure_
        input_path output_dir models_dir animal = (Except.error Err.fileNotFound, [])) := by
  constructor
  · intro net unzip conv inferRun fs0 config mode structure_ input output models_dir name
      mi url mname hm hurl hname hpres hnm
    have hdl := download_M_err_noManifest net unzip (FS.mkdir fs0 models_dir) freshCtx
      url mname models_dir hpres hnm (show freshCtx.dataset_json_path = none from rfl)
    simp only [main_pipeline, hm, hurl, hname, hdl]
  · intro net unzip conv inferRun fs0 ctx0 config mode structure_ input_path output_dir
      models_dir animal mi url mname hm hurl hname hpres hnm
    have hdl := download_P_err_noManifest net unzip
      (FS.mkdir (FS.mkdir fs0 models_dir) output_dir) ctx0 url mname models_dir hpres hnm
    simp only [run_nnunet_prediction_P, hm, hurl, hname, hdl]

/-- Witness for C8 on a concrete model directory without a manifest. -/
theorem claim_C8_missing_manifest_witness :
    main_pipeline (fun _ => Json.null) (fun _ => []) (fun j => j)
        (fun _ _ _ => Except.error Err.runtimeError)
        [("models", FSEntry.dir), ("models/m", FSEntry.dir)] freshCtx
        (Json.obj [("Invivo", Json.obj [("Parenchyma",
          Json.obj [("model_url", Json.str "u"), ("model_name", Json.str "m")])])])
        "Invivo" "Parenchyma" "in.nrrd" "out" "models" "seg"
      = (Except.error Err.fileNotFound, []) ∧
    run_nnunet_prediction_P (fun _ => Json.null) (fun _ => []) (fun j => j)
        (fun _ _ _ => Except.error Err.runtimeError)
        [("models", FSEntry.dir), ("models/m", FSEntry.dir)] freshCtx
        (Json.obj [("rabbit", Json.obj [("invivo", Json.obj [("parenchyma",
          Json.obj [("model_url", Json.str "u"), ("model_name", Json.str "m")])])])])
        "invivo" "parenchyma" "in.nrrd" "out" "models" "rabbit"
      = (Except.error Err.fileNotFound, []) :=
  ⟨claim_C8_missing_manifest.1 (fun _ => Json.null) (fun _ => []) (fun j => j)
      (fun _ _ _ => Except.error Err.runtimeError)
      [("models", FSEntry.dir), ("models/m", FSEntry.dir)]
      (Json.obj [("Invivo", Json.obj [("Parenchyma",
        Json.obj [("model_url", Json.str "u"), ("model_name", Json.str "m")])])])
      "Invivo" "Parenchyma" "in.nrrd" "out" "models" "seg"
      (Json.obj [("model_url", Json.str "u"), ("model_name", Json.str "m")]) "u" "m"
      (by rfl) (by rfl) (by rfl) (by rfl) (by rfl),
    claim_C8_missing_manifest.2 (fun _ => Json.null) (fun _ => []) (fun j => j)
      (fun _ _ _ => Except.error Err.runtimeError)
      [("models", FSEntry.dir), ("models/m", FSEntry.dir)] freshCtx
      (Json.obj [("rabbit", Json.obj [("invivo", Json.obj [("parenchyma",
        Json.obj [("model_url", Json.str "u"), ("model_name", Json.str "m")])])])])
      "invivo" "parenchyma" "in.nrrd" "out" "models" "rabbit"
      (Json.obj [("model_url", Json.str "u"), ("model_name", Json.str "m")]) "u" "m"
      (by rfl) (by rfl) (by rfl) (by rfl) (by rfl)⟩

/-! ## Staging lemmas (C4, C5, C6 infrastructure) -/

/-- Successful runs of main.py's `edit_dataset_json_for_prediction` read an
object manifest from the context path, stage the input at the fixed
destination, and write back the rewritten manifest. -/
theorem edit_M_ok {conv : Json → Json} {fs : FS} {ctx : Ctx} {input : Path}
    {fsR : FS} {djpR its : Path}
    (h : edit_dataset_json_M conv fs ctx input = Except.ok (fsR, djpR, its)) :
    ∃ djp kvs fs3,
      ctx.dataset_json_path = some djp ∧
      FS.readFile fs djp = some (Json.obj kvs) ∧
      djpR = djp ∧
      its = joinPath (dirname djp) "imagesTs" ∧
      FS.lexists fs3 (stagedDst djp) = true ∧
      fsR = FS.writeFile fs3 djp (Json.obj (setKV (manifestRewrite kvs) "test"
        (Json.arr [Json.arr [Json.str "./imagesTs/001_0000.nrrd"]]))) := by
  simp only [edit_dataset_json_M] at h
  split at h
  all_goals try (simp only [reduceCtorEq] at h)
  rename_i djp hctx
  split at h
  all_goals try (simp only [reduceCtorEq] at h)
  rename_i dj hread
  split at h
  all_goals try (simp only [reduceCtorEq] at h)
  rename_i kvs
  split at h
  all_goals try (simp only [reduceCtorEq] at h)
  rename_i fs3 hstaged
  simp only [Except.ok.injEq, Prod.mk.injEq] at h
  obtain ⟨hfsR, hdjpR, hits⟩ := h
  refine ⟨djp, kvs, fs3, hctx, hread, hdjpR.symm, hits.symm, ?_, hfsR.symm⟩
  by_cases hext : strLower (splitextExt input) = ".nrrd"
  · rw [if_pos hext, fsSymlink] at hstaged
    split at hstaged
    · exact absurd hstaged (by simp)
    · simp only [Except.ok.injEq] at hstaged
      rw [← hstaged, stagedDst, FS.lexists, FS.lookup_set, if_pos rfl]
      rfl
  · rw [if_neg hext] at hstaged
    split at hstaged
    · rename_i img hrd
      simp only [Except.ok.injEq] at hstaged
      rw [← hstaged, stagedDst]
      exact FS.lexists_writeFile_self _ _ _
    · exact absurd hstaged (by simp)

/-- Successful runs of predict.py's `edit_dataset_json_for_prediction`,
characterised like main.py's. -/
theorem edit_P_ok {conv : Json → Json} {fs : FS} {ctx : Ctx} {input : Path}
    {fsR : FS} {its : Path}
    (h : edit_dataset_json_P conv fs ctx input = Except.ok (fsR, its)) :
    ∃ djp kvs fs3,
      ctx.dataset_json_path = some djp ∧
      FS.readFile fs djp = some (Json.obj kvs) ∧
      its = joinPath (dirname djp) "imagesTs" ∧
      FS.lexists fs3 (stagedDst djp) = true ∧
      fsR = FS.writeFile fs3 djp (Json.obj (setKV (manifestRewrite kvs) "test"
        (Json.arr [Json.arr [Json.str "./imagesTs/001_0000.nrrd"]]))) := by
  simp only [edit_dataset_json_P] at h
  split at h
  all_goals try (simp only [reduceCtorEq] at h)
  rename_i djp hctx
  split at h
  all_goals try (simp only [reduceCtorEq] at h)
  rename_i dj hread
  split at h
  all_goals try (simp only [reduceCtorEq] at h)
  rename_i kvs
  split at h
  all_goals try (simp only [reduceCtorEq] at h)
  rename_i fs3 hstaged
  simp only [Except.ok.injEq, Prod.mk.injEq] at h
  obtain ⟨hfsR, hits⟩ := h
  refine ⟨djp, kvs, fs3, hctx, hread, hits.symm, ?_, hfsR.symm⟩
  by_cases hext : strLower (splitextExt input) = ".nrrd"
  · rw [if_pos hext] at hstaged
    split at hstaged
    · rename_i c hrd
      simp only [Except.ok.injEq] at hstaged
      rw [← hstaged, stagedDst]
      exact FS.lexists_writeFile_self _ _ _
    · exact absurd hstaged (by simp)
  · rw [if_neg hext] at hstaged
    split at hstaged
    · rename_i img hrd
      simp only [Except.ok.injEq] at hstaged
      rw [← hstaged, stagedDst]
      exact FS.lexists_writeFile_self _ _ _
    · exact absurd hstaged (by simp)

/-! ## Output-directory lemmas (C1 infrastructure) -/

theorem outputPost_001 {o : Path} {fs : FS} (h : outputPostB o fs = true) :
    ∃ c, FS.lookup fs (joinPath o "001.nrrd") = some (FSEntry.file c) := by
  rw [outputPostB, Bool.and_eq_true] at h
  obtain ⟨h1, -⟩ := h
  cases hl : FS.lookup fs (joinPath o "001.nrrd") with
  | none => rw [hl] at h1; simp at h1
  | some e =>
    cases e with
    | file c => exact ⟨c, rfl⟩
    | dir => rw [hl] at h1; simp at h1
    | symlink t => rw [hl] at h1; simp at h1

theorem outputPost_all {o : Path} {fs : FS} (h : outputPostB o fs = true) :
    ∀ p e, inDir o p = true → FS.lookup fs p = some e →
      p ∈ rawOutputs o ∧ ∃ c, e = FSEntry.file c := by
  rw [outputPostB, Bool.and_eq_true] at h
  obtain ⟨-, h2⟩ := h
  intro p e hin hl
  have h3 := List.all_eq_true.mp h2 (p, e) (FS.lookup_mem hl)
  simp only [hin, Bool.not_true, Bool.false_or, Bool.and_eq_true] at h3
  obtain ⟨hm, hf⟩ := h3
  refine ⟨(memB_iff _ _).mp hm, ?_⟩
  cases e with
  | file c => exact ⟨c, rfl⟩
  | dir => simp [isFileB] at hf
  | symlink t => simp [isFileB] at hf

theorem cleanup_lookup_ne (fs : FS) (o p : Path)
    (h1 : joinPath o "dataset.json" ≠ p) (h2 : joinPath o "plans.json" ≠ p)
    (h3 : joinPath o "predict_from_raw_data_args.json" ≠ p) :
    FS.lookup (cleanup_prediction_files fs o) p = FS.lookup fs p := by
  rw [cleanup_prediction_files, scratchNames]
  simp only [List.foldl_cons, List.foldl_nil]
  rw [cleanupStep_lookup, if_neg h3, cleanupStep_lookup, if_neg h2,
    cleanupStep_lookup, if_neg h1]

theorem cleanup_lookup_scratch (fs : FS) (o p : Path)
    (hp : p = joinPath o "dataset.json" ∨ p = joinPath o "plans.json"
        ∨ p = joinPath o "predict_from_raw_data_args.json")
    (hfile : ∀ e, FS.lookup fs p = some e → ∃ c, e = FSEntry.file c) :
    FS.lookup (cleanup_prediction_files fs o) p = none := by
  rw [cleanup_prediction_files, scratchNames]
  simp only [List.foldl_cons, List.foldl_nil]
  rcases hp with hp | hp | hp <;> subst hp
  · rw [cleanupStep_lookup, if_neg (@joinPath_ne o _ _ (by decide)),
      cleanupStep_lookup, if_neg (@joinPath_ne o _ _ (by decide))]
    exact cleanupStep_self_none hfile
  · rw [cleanupStep_lookup, if_neg (@joinPath_ne o _ _ (by decide))]
    apply cleanupStep_self_none
    intro e he
    rw [cleanupStep_lookup, if_neg (@joinPath_ne o _ _ (by decide))] at he
    exact hfile e he
  · apply cleanupStep_self_none
    intro e he
    rw [cleanupStep_lookup, if_neg (@joinPath_ne o _ _ (by decide)),
      cleanupStep_lookup, if_neg (@joinPath_ne o _ _ (by decide))] at he
    exact hfile e he

/-- The output-finishing tail of main.py (`rename_prediction_file` then
`cleanup_prediction_files`): after a successful inference, the output
directory holds exactly the renamed result `name.nrrd`. -/
theorem finish_main (fs1 : FS) (o name : String) (hpost : outputPostB o fs1 = true) :
    (rename_prediction_file_M fs1 (joinPath o "001.nrrd") name).2
        = joinPath o (name ++ ".nrrd") ∧
    ∀ p, inDir o p = true →
      (FS.lexists (cleanup_prediction_files
          (rename_prediction_file_M fs1 (joinPath o "001.nrrd") name).1 o) p = true
        ↔ p = joinPath o (name ++ ".nrrd")) := by
  obtain ⟨c0, hc0⟩ := outputPost_001 hpost
  have hall := outputPost_all hpost
  have hex : FS.pexists fs1 (joinPath o "001.nrrd") = true := FS.pexists_of_file hc0
  have hdir : dirname (joinPath o "001.nrrd") = o := dirname_joinPath o "001.nrrd" (by decide)
  have hren : rename_prediction_file_M fs1 (joinPath o "001.nrrd") name
      = (FS.set (FS.remove fs1 (joinPath o "001.nrrd")) (joinPath o (name ++ ".nrrd"))
          (FSEntry.file c0), joinPath o (name ++ ".nrrd")) := by
    rw [rename_prediction_file_M, hdir, if_pos hex, FS.rename, hc0]
  rw [hren]
  refine ⟨rfl, ?_⟩
  intro p hin
  have hnewS1 : joinPath o "dataset.json" ≠ joinPath o (name ++ ".nrrd") :=
    joinPath_ne (Ne.symm (append_suffix_ne name ".nrrd" "dataset.json" (by decide)))
  have hnewS2 : joinPath o "plans.json" ≠ joinPath o (name ++ ".nrrd") :=
    joinPath_ne (Ne.symm (append_suffix_ne name ".nrrd" "plans.json" (by decide)))
  have hnewS3 : joinPath o "predict_from_raw_data_args.json" ≠ joinPath o (name ++ ".nrrd") :=
    joinPath_ne (Ne.symm (append_suffix_ne name ".nrrd" "predict_from_raw_data_args.json"
      (by decide)))
  have hfs2 : ∀ q, FS.lookup (FS.set (FS.remove fs1 (joinPath o "001.nrrd"))
      (joinPath o (name ++ ".nrrd")) (FSEntry.file c0)) q
      = if joinPath o (name ++ ".nrrd") = q then some (FSEntry.file c0)
        else if joinPath o "001.nrrd" = q then none else FS.lookup fs1 q := by
    intro q
    rw [FS.lookup_set, FS.lookup_remove]
  constructor
  · intro hlex
    by_contra hne
    have hnone : FS.lookup (cleanup_prediction_files
        (FS.set (FS.remove fs1 (joinPath o "001.nrrd")) (joinPath o (name ++ ".nrrd"))
          (FSEntry.file c0)) o) p = none := by
      by_cases hp1 : p = joinPath o "dataset.json"
      · apply cleanup_lookup_scratch _ _ _ (Or.inl hp1)
        intro e he
        rw [hfs2, if_neg (fun he2 => hnewS1 (hp1 ▸ he2.symm)),
          if_neg (fun he2 => @joinPath_ne o _ _ (by decide) (he2.trans hp1))] at he
        exact (hall p e hin he).2
      · by_cases hp2 : p = joinPath o "plans.json"
        · apply cleanup_lookup_scratch _ _ _ (Or.inr (Or.inl hp2))
          intro e he
          rw [hfs2, if_neg (fun he2 => hnewS2 (hp2 ▸ he2.symm)),
            if_neg (fun he2 => @joinPath_ne o _ _ (by decide) (he2.trans hp2))] at he
          exact (hall p e hin he).2
        · by_cases hp3 : p = joinPath o "predict_from_raw_data_args.json"
          · apply cleanup_lookup_scratch _ _ _ (Or.inr (Or.inr hp3))
            intro e he
            rw [hfs2, if_neg (fun he2 => hnewS3 (hp3 ▸ he2.symm)),
              if_neg (fun he2 => @joinPath_ne o _ _ (by decide) (he2.trans hp3))] at he
            exact (hall p e hin he).2
          · rw [cleanup_lookup_ne _ _ _ (fun he => hp1 he.symm) (fun he => hp2 he.symm)
              (fun he => hp3 he.symm), hfs2, if_neg (fun he => hne he.symm)]
            by_cases hpred : joinPath o "001.nrrd" = p
            · rw [if_pos hpred]
            · rw [if_neg hpred]
              cases hl : FS.lookup fs1 p with
              | none => rfl
              | some e =>
                have hmem := (hall p e hin hl).1
                simp only [rawOutputs, List.mem_cons, List.not_mem_nil, or_false]
                  at hmem
                rcases hmem with hm | hm | hm | hm
                · exact absurd hm.symm hpred
                · exact absurd hm hp1
                · exact absurd hm hp2
                · exact absurd hm hp3
    rw [FS.lexists, hnone] at hlex
    simp at hlex
  · intro hpe
    subst hpe
    rw [FS.lexists, cleanup_lookup_ne _ _ _ hnewS1 hnewS2 hnewS3, hfs2, if_pos rfl]
    rfl

/-- The output-finishing tail of predict.py (`cleanup_prediction_files`
only — `rename_prediction_file` is never called): after a successful
inference, the output directory holds exactly the raw result `001.nrrd`. -/
theorem finish_P (fs1 : FS) (o : String) (hpost : outputPostB o fs1 = true) :
    ∀ p, inDir o p = true →
      (FS.lexists (cleanup_prediction_files fs1 o) p = true
        ↔ p = joinPath o "001.nrrd") := by
  obtain ⟨c0, hc0⟩ := outputPost_001 hpost
  have hall := outputPost_all hpost
  intro p hin
  constructor
  · intro hlex
    by_contra hne
    have hnone : FS.lookup (cleanup_prediction_files fs1 o) p = none := by
      by_cases hp1 : p = joinPath o "dataset.json"
      · apply cleanup_lookup_scratch _ _ _ (Or.inl hp1)
        intro e he
        exact (hall p e hin he).2
      · by_cases hp2 : p = joinPath o "plans.json"
        · apply cleanup_lookup_scratch _ _ _ (Or.inr (Or.inl hp2))
          intro e he
          exact (hall p e hin he).2
        · by_cases hp3 : p = joinPath o "predict_from_raw_data_args.json"
          · apply cleanup_lookup_scratch _ _ _ (Or.inr (Or.inr hp3))
            intro e he
            exact (hall p e hin he).2
          · rw [cleanup_lookup_ne _ _ _ (fun he => hp1 he.symm) (fun he => hp2 he.symm)
              (fun he => hp3 he.symm)]
            cases hl : FS.lookup fs1 p with
            | none => rfl
            | some e =>
              have hmem := (hall p e hin hl).1
              simp only [rawOutputs, List.mem_cons, List.not_mem_nil, or_false] at hmem
              rcases hmem with hm | hm | hm | hm
              · exact absurd hm hne
              · exact absurd hm hp1
              · exact absurd hm hp2
              · exact absurd hm hp3
    rw [FS.lexists, hnone] at hlex
    simp at hlex
  · intro hpe
    subst hpe
    rw [FS.lexists, cleanup_lookup_ne _ _ _ (@joinPath_ne o _ _ (by decide))
      (@joinPath_ne o _ _ (by decide)) (@joinPath_ne o _ _ (by decide)), hc0]
    rfl

/-- Successful runs of main.py's pipeline end with the inference output
renamed and the scratch files cleaned up. -/
theorem main_pipeline_ok {net : String → Json} {unzip : Json → List (String × Json)}
    {conv : Json → Json} {inferRun : FS → Path → Path → Except Err FS}
    {fs0 : FS} {ctx0 : Ctx} {config : Json}
    {mode structure_ input output models_dir name : String}
    {fs' : FS} {ctx' : Ctx} {seg : Path} {tr : List Event}
    (h : main_pipeline net unzip conv inferRun fs0 ctx0 config mode structure_ input output
        models_dir name = (Except.ok (fs', ctx', seg), tr)) :
    ∃ fsPre imagesTs fs1,
      inferRun fsPre imagesTs output = Except.ok fs1 ∧
      fs' = cleanup_prediction_files
        (rename_prediction_file_M fs1 (joinPath output "001.nrrd") name).1 output ∧
      seg = (rename_prediction_file_M fs1 (joinPath output "001.nrrd") name).2 := by
  simp only [main_pipeline] at h
  rcases hcfg : objGet2 config mode structure_ with _ | mi
  · simp only [hcfg, Prod.mk.injEq, reduceCtorEq, false_and] at h
  simp only [hcfg] at h
  rcases hurl : objGetStr mi "model_url" with _ | url <;>
    rcases hnm : objGetStr mi "model_name" with _ | mname <;>
    simp only [hurl, hnm, Prod.mk.injEq, reduceCtorEq, false_and] at h
  rcases hdl : download_and_extract_model_M net unzip (FS.mkdir fs0 models_dir) ctx0 url
      mname models_dir with ⟨res, evs0⟩
  rcases res with e | ⟨fsA, ctxA, mpA⟩ <;>
    simp only [hdl, Prod.mk.injEq, reduceCtorEq, false_and] at h
  rcases hed : edit_dataset_json_M conv fsA ctxA input with e | ⟨fsB, djpB, itsB⟩ <;>
    simp only [hed, Prod.mk.injEq, reduceCtorEq, false_and] at h
  rcases hid : objGet mi "model_id" with _ | jid <;>
    rcases hcf : objGet mi "configuration" with _ | jcf <;>
    rcases hfd : objGet mi "fold" with _ | jfd <;>
    simp only [hid, hcf, hfd, Prod.mk.injEq, reduceCtorEq, false_and] at h
  rcases hinf : inferRun (FS.mkdir fsB output) itsB output with e | fs1 <;>
    simp only [hinf, Prod.mk.injEq, Except.ok.injEq, reduceCtorEq, false_and] at h
  obtain ⟨⟨hfs', -, hseg⟩, -⟩ := h
  exact ⟨FS.mkdir fsB output, itsB, fs1, hinf, hfs'.symm, hseg.symm⟩

/-- Successful runs of predict.py's pipeline end with the scratch files
cleaned up and the raw output path returned unrenamed. -/
theorem predict_pipeline_ok {net : String → Json} {unzip : Json → List (String × Json)}
    {conv : Json → Json} {inferRun : FS → Path → Path → Except Err FS}
    {fs0 : FS} {ctx0 : Ctx} {config : Json}
    {mode structure_ input_path output_dir models_dir animal : String}
    {fs' : FS} {ctx' : Ctx} {pred : Path} {tr : List Event}
    (h : run_nnunet_prediction_P net unzip conv inferRun fs0 ctx0 config mode structure_
        input_path output_dir models_dir animal = (Except.ok (fs', ctx', pred), tr)) :
    ∃ fsPre imagesTs fs1,
      inferRun fsPre imagesTs output_dir = Except.ok fs1 ∧
      fs' = cleanup_prediction_files fs1 output_dir ∧
      pred = joinPath output_dir "001.nrrd" := by
  simp only [run_nnunet_prediction_P] at h
  rcases hcfg : objGet3 config animal mode structure_ with _ | mi
  · simp only [hcfg, Prod.mk.injEq, reduceCtorEq, false_and] at h
  simp only [hcfg] at h
  rcases hurl : objGetStr mi "model_url" with _ | url <;>
    rcases hnm : objGetStr mi "model_name" with _ | mname <;>
    simp only [hurl, hnm, Prod.mk.injEq, reduceCtorEq, false_and] at h
  rcases hdl : download_and_extract_model_P net unzip
      (FS.mkdir (FS.mkdir fs0 models_dir) output_dir) ctx0 url mname models_dir
    with ⟨res, evs0⟩
  rcases res with e | ⟨fsA, ctxA⟩ <;>
    simp only [hdl, Prod.mk.injEq, reduceCtorEq, false_and] at h
  rcases hed : edit_dataset_json_P conv fsA ctxA input_path with e | ⟨fsB, itsB⟩ <;>
    simp only [hed, Prod.mk.injEq, reduceCtorEq, false_and] at h
  rcases hd1 : firstSubdir fsB (joinPath models_dir mname) with _ | d1 <;>
    simp only [hd1, Prod.mk.injEq, reduceCtorEq, false_and] at h
  rcases hd2 : firstSubdir fsB (joinPath (joinPath models_dir mname) d1) with _ | d2 <;>
    simp only [hd2, Prod.mk.injEq, reduceCtorEq, false_and] at h
  rcases hfd : objGet mi "fold" with _ | jfd <;>
    simp only [hfd, Prod.mk.injEq, reduceCtorEq, false_and] at h
  rcases hinf : inferRun fsB itsB output_dir with e | fs1 <;>
    simp only [hinf, Prod.mk.injEq, Except.ok.injEq, reduceCtorEq, false_and] at h
  obtain ⟨⟨hfs', -, hpred⟩, -⟩ := h
  exact ⟨fsB, itsB, fs1, hinf, hfs'.symm, hpred.symm⟩

/-! ## Claim C1 -/

/-- Claim C1 (amended): after a successful run whose inference step leaves
the raw output `001.nrrd` (plus at most the three scratch manifests, all
regular files) in the output directory, main.py's pipeline leaves the
output directory with exactly one file, named `name.nrrd` from the user's
`--name` argument, and no scratch manifests; predict.py's
`run_nnunet_prediction` also removes the scratch manifests but never calls
`rename_prediction_file`, so its output directory's single file keeps the
raw name `001.nrrd`. -/
theorem claim_C1_output_dir :
    (∀ net unzip conv inferRun fs0 ctx0 config mode structure_ input output models_dir name
        fs' ctx' seg tr,
      (∀ fsx i fsy, inferRun fsx i output = Except.ok fsy → outputPostB output fsy = true) →
      main_pipeline net unzip conv inferRun fs0 ctx0 config mode structure_ input output
          models_dir name = (Except.ok (fs', ctx', seg), tr) →
      seg = joinPath output (name ++ ".nrrd") ∧
      ∀ p, inDir output p = true →
        (FS.lexists fs' p = true ↔ p = joinPath output (name ++ ".nrrd"))) ∧
    (∀ net unzip conv inferRun fs0 ctx0 config mode structure_ input_path output_dir
        models_dir animal fs' ctx' pred tr,
      (∀ fsx i fsy, inferRun fsx i output_dir = Except.ok fsy →
        outputPostB output_dir fsy = true) →
      run_nnunet_prediction_P net unzip conv inferRun fs0 ctx0 config mode structure_
          input_path output_dir models_dir animal = (Except.ok (fs', ctx', pred), tr) →
      pred = joinPath output_dir "001.nrrd" ∧
      ∀ p, inDir output_dir p = true →
        (FS.lexists fs' p = true ↔ p = joinPath output_dir "001.nrrd")) := by
  constructor
  · intro net unzip conv inferRun fs0 ctx0 config mode structure_ input output models_dir
      name fs' ctx' seg tr hpost h
    obtain ⟨fsPre, imagesTs, fs1, hinf, hfs', hseg⟩ := main_pipeline_ok h
    have hp := hpost fsPre imagesTs fs1 hinf
    obtain ⟨hseg2, hdir⟩ := finish_main fs1 output name hp
    constructor
    · rw [hseg, hseg2]
    · intro p hin
      rw [hfs']
      exact hdir p hin
  · intro net unzip conv inferRun fs0 ctx0 config mode structure_ input_path output_dir
      models_dir animal fs' ctx' pred tr hpost h
    obtain ⟨fsPre, imagesTs, fs1, hinf, hfs', hpred⟩ := predict_pipeline_ok h
    have hp := hpost fsPre imagesTs fs1 hinf
    refine ⟨hpred, ?_⟩
    intro p hin
    rw [hfs']
    exact finish_P fs1 output_dir hp p hin

/-- Witness for C1 on a concrete end-to-end main.py run: the reported path
is `out/seg.nrrd`, and that path is in (the only entry of) the final
output directory. -/
theorem claim_C1_output_dir_witness :
    ("out/seg.nrrd" : Path) = joinPath "out" ("seg" ++ ".nrrd") ∧
    (FS.lexists [("out/seg.nrrd", FSEntry.file (Json.str "seg"))] "out/seg.nrrd" = true
      ↔ ("out/seg.nrrd" : Path) = joinPath "out" ("seg" ++ ".nrrd")) := by
  have H := claim_C1_output_dir.1 (fun _ => Json.null) (fun _ => []) (fun j => j)
    (fun _ _ _ => Except.ok
      [("out/001.nrrd", FSEntry.file (Json.str "seg")),
       ("out/dataset.json", FSEntry.file Json.null),
       ("out/plans.json", FSEntry.file Json.null),
       ("out/predict_from_raw_data_args.json", FSEntry.file Json.null)])
    [("models", FSEntry.dir), ("models/m", FSEntry.dir),
     ("models/m/D1", FSEntry.dir), ("models/m/D1/T1", FSEntry.dir),
     ("models/m/D1/T1/dataset.json", FSEntry.file (Json.obj
       [("labels", Json.obj [("l", Json.num 1)]), ("training", Json.arr []),
        ("numTraining", Json.num 10), ("numTest", Json.num 0)])),
     ("in.nrrd", FSEntry.file (Json.str "img"))]
    freshCtx
    (Json.obj [("Invivo", Json.obj [("Parenchyma", Json.obj
      [("model_url", Json.str "u"), ("model_name", Json.str "m"),
       ("model_id", Json.str "9"), ("configuration", Json.str "3d"),
       ("fold", Json.num 0)])])])
    "Invivo" "Parenchyma" "in.nrrd" "out" "models" "seg"
    [("out/seg.nrrd", FSEntry.file (Json.str "seg"))]
    ⟨some "models/m/D1/T1/dataset.json", some [(1, "l")]⟩ "out/seg.nrrd"
    [Event.inference]
    (by intro fsx i fsy hy; injection hy with hy2; rw [← hy2]; rfl)
    (by rfl)
  exact ⟨H.1, H.2 "out/seg.nrrd" (by rfl)⟩

/-- Counterexample for C1 as stated: a successful concrete run of
predict.py's `run_nnunet_prediction` leaves the single output file named
`001.nrrd`; nothing named from a user `--name` argument (such as
`seg.nrrd`) exists, since this pipeline never renames. -/
theorem claim_C1_cex :
    run_nnunet_prediction_P (fun _ => Json.null) (fun _ => []) (fun j => j)
      (fun _ _ _ => Except.ok
        [("out/001.nrrd", FSEntry.file (Json.str "seg")),
         ("out/dataset.json", FSEntry.file Json.null),
         ("out/plans.json", FSEntry.file Json.null),
         ("out/predict_from_raw_data_args.json", FSEntry.file Json.null)])
      [("models", FSEntry.dir), ("models/m", FSEntry.dir),
       ("models/m/D1", FSEntry.dir), ("models/m/D1/T1", FSEntry.dir),
       ("models/m/D1/T1/dataset.json", FSEntry.file (Json.obj
         [("labels", Json.obj [("l", Json.num 1)]), ("training", Json.arr []),
          ("numTraining", Json.num 10), ("numTest", Json.num 0)])),
       ("in.nrrd", FSEntry.file (Json.str "img"))]
      freshCtx
      (Json.obj [("rabbit", Json.obj [("invivo", Json.obj [("parenchyma", Json.obj
        [("model_url", Json.str "u"), ("model_name", Json.str "m"),
         ("fold", Json.num 0)])])])])
      "invivo" "parenchyma" "in.nrrd" "out" "models" "rabbit"
    = (Except.ok ([("out/001.nrrd", FSEntry.file (Json.str "seg"))],
        (⟨some "models/m/D1/T1/dataset.json", some [(1, "l")]⟩ : Ctx), "out/001.nrrd"),
       [Event.inference]) ∧
    FS.lexists [("out/001.nrrd", FSEntry.file (Json.str "seg"))] "out/seg.nrrd" = false ∧
    FS.lexists [("out/001.nrrd", FSEntry.file (Json.str "seg"))] "out/001.nrrd" = true :=
  ⟨by rfl, by rfl, by rfl⟩

/-! ## Claim C4 -/

/-- Claim C4 (amended): after either `edit_dataset_json_for_prediction`
returns, the on-disk manifest has no `"training"` key, `numTraining = 0`,
`numTest = 1`, and a `"test"` list with exactly one entry — that entry
being the one-element channel list containing the fixed staged filename
`./imagesTs/001_0000.nrrd` (not the bare filename string). -/
theorem claim_C4_manifest :
    (∀ conv fs ctx input fsR djpR its djp,
      ctx.dataset_json_path = some djp →
      edit_dataset_json_M conv fs ctx input = Except.ok (fsR, djpR, its) →
      ∃ kvs', FS.readFile fsR djp = some (Json.obj kvs') ∧
        getKV kvs' "training" = none ∧
        getKV kvs' "numTraining" = some (Json.num 0) ∧
        getKV kvs' "numTest" = some (Json.num 1) ∧
        getKV kvs' "test"
          = some (Json.arr [Json.arr [Json.str "./imagesTs/001_0000.nrrd"]])) ∧
    (∀ conv fs ctx input fsR its djp,
      ctx.dataset_json_path = some djp →
      edit_dataset_json_P conv fs ctx input = Except.ok (fsR, its) →
      ∃ kvs', FS.readFile fsR djp = some (Json.obj kvs') ∧
        getKV kvs' "training" = none ∧
        getKV kvs' "numTraining" = some (Json.num 0) ∧
        getKV kvs' "numTest" = some (Json.num 1) ∧
        getKV kvs' "test"
          = some (Json.arr [Json.arr [Json.str "./imagesTs/001_0000.nrrd"]])) := by
  constructor
  · intro conv fs ctx input fsR djpR its djp hctx h
    obtain ⟨djp0, kvs, fs3, hctx0, hread, hdjpR, hits, hlex, hfsR⟩ := edit_M_ok h
    obtain rfl : djp0 = djp := by
      rw [hctx] at hctx0
      exact (Option.some.injEq _ _ ▸ hctx0).symm
    refine ⟨setKV (manifestRewrite kvs) "test"
      (Json.arr [Json.arr [Json.str "./imagesTs/001_0000.nrrd"]]), ?_, ?_, ?_, ?_, ?_⟩
    · rw [hfsR]
      exact FS.readFile_writeFile_self _ _ _
    · rw [getKV_setKV_ne _ _ _ _ (by decide), manifestRewrite,
        getKV_setKV_ne _ _ _ _ (by decide), getKV_setKV_ne _ _ _ _ (by decide),
        getKV_delKV_self]
    · rw [getKV_setKV_ne _ _ _ _ (by decide), manifestRewrite,
        getKV_setKV_ne _ _ _ _ (by decide), getKV_setKV_self]
    · rw [getKV_setKV_ne _ _ _ _ (by decide), manifestRewrite, getKV_setKV_self]
    · exact getKV_setKV_self _ _ _
  · intro conv fs ctx input fsR its djp hctx h
    obtain ⟨djp0, kvs, fs3, hctx0, hread, hits, hlex, hfsR⟩ := edit_P_ok h
    obtain rfl : djp0 = djp := by
      rw [hctx] at hctx0
      exact (Option.some.injEq _ _ ▸ hctx0).symm
    refine ⟨setKV (manifestRewrite kvs) "test"
      (Json.arr [Json.arr [Json.str "./imagesTs/001_0000.nrrd"]]), ?_, ?_, ?_, ?_, ?_⟩
    · rw [hfsR]
      exact FS.readFile_writeFile_self _ _ _
    · rw [getKV_setKV_ne _ _ _ _ (by decide), manifestRewrite,
        getKV_setKV_ne _ _ _ _ (by decide), getKV_setKV_ne _ _ _ _ (by decide),
        getKV_delKV_self]
    · rw [getKV_setKV_ne _ _ _ _ (by decide), manifestRewrite,
        getKV_setKV_ne _ _ _ _ (by decide), getKV_setKV_self]
    · rw [getKV_setKV_ne _ _ _ _ (by decide), manifestRewrite, getKV_setKV_self]
    · exact getKV_setKV_self _ _ _

/-- Witness for C4 on a concrete main.py staging run. -/
theorem claim_C4_manifest_witness :
    ∃ kvs', FS.readFile
        [("model/dataset.json", FSEntry.file (Json.obj
            [("labels", Json.num 0), ("numTraining", Json.num 0), ("numTest", Json.num 1),
             ("test", Json.arr [Json.arr [Json.str "./imagesTs/001_0000.nrrd"]])])),
          ("model/imagesTs/001_0000.nrrd", FSEntry.symlink "in.nrrd"),
          ("model/imagesTs", FSEntry.dir),
          ("in.nrrd", FSEntry.file (Json.str "img"))]
        "model/dataset.json" = some (Json.obj kvs') ∧
      getKV kvs' "training" = none ∧
      getKV kvs' "numTraining" = some (Json.num 0) ∧
      getKV kvs' "numTest" = some (Json.num 1) ∧
      getKV kvs' "test"
        = some (Json.arr [Json.arr [Json.str "./imagesTs/001_0000.nrrd"]]) :=
  claim_C4_manifest.1 (fun j => j)
    [("model/dataset.json", FSEntry.file (Json.obj
        [("labels", Json.num 0), ("training", Json.arr []),
         ("numTraining", Json.num 5), ("numTest", Json.num 0)])),
      ("in.nrrd", FSEntry.file (Json.str "img"))]
    ⟨some "model/dataset.json", none⟩ "in.nrrd"
    [("model/dataset.json", FSEntry.file (Json.obj
        [("labels", Json.num 0), ("numTraining", Json.num 0), ("numTest", Json.num 1),
         ("test", Json.arr [Json.arr [Json.str "./imagesTs/001_0000.nrrd"]])])),
      ("model/imagesTs/001_0000.nrrd", FSEntry.symlink "in.nrrd"),
      ("model/imagesTs", FSEntry.dir),
      ("in.nrrd", FSEntry.file (Json.str "img"))]
    "model/dataset.json" "model/imagesTs" "model/dataset.json" (by rfl) (by rfl)

/-- Counterexample for C4 as stated: the single entry of the written
`"test"` list is the one-element list `["./imagesTs/001_0000.nrrd"]`, not
the filename string itself. -/
theorem claim_C4_cex :
    edit_dataset_json_M (fun j => j)
      [("model/dataset.json", FSEntry.file (Json.obj
          [("labels", Json.num 0), ("training", Json.arr []),
           ("numTraining", Json.num 5), ("numTest", Json.num 0)])),
       ("in.nrrd", FSEntry.file (Json.str "img"))]
      ⟨some "model/dataset.json", none⟩ "in.nrrd"
    = Except.ok
        ([("model/dataset.json", FSEntry.file (Json.obj
            [("labels", Json.num 0), ("numTraining", Json.num 0), ("numTest", Json.num 1),
             ("test", Json.arr [Json.arr [Json.str "./imagesTs/001_0000.nrrd"]])])),
          ("model/imagesTs/001_0000.nrrd", FSEntry.symlink "in.nrrd"),
          ("model/imagesTs", FSEntry.dir),
          ("in.nrrd", FSEntry.file (Json.str "img"))],
         "model/dataset.json", "model/imagesTs") ∧
    Json.arr [Json.arr [Json.str "./imagesTs/001_0000.nrrd"]]
      ≠ Json.arr [Json.str "./imagesTs/001_0000.nrrd"] := by
  refine ⟨by rfl, ?_⟩
  intro h
  injection h with h2
  injection h2 with h3
  exact absurd h3 (by simp)

/-! ## Claim C5 -/

/-- Claim C5: whatever the source extension of the input image, both
`edit_dataset_json_for_prediction` implementations stage the input at the
same fixed destination `imagesTs/001_0000.nrrd` next to the manifest. -/
theorem claim_C5_fixed_staging :
    (∀ conv fs ctx input fsR djpR its djp,
      ctx.dataset_json_path = some djp →
      edit_dataset_json_M conv fs ctx input = Except.ok (fsR, djpR, its) →
      its = joinPath (dirname djp) "imagesTs" ∧
      FS.lexists fsR (joinPath its "001_0000.nrrd") = true) ∧
    (∀ conv fs ctx input fsR its djp,
      ctx.dataset_json_path = some djp →
      edit_dataset_json_P conv fs ctx input = Except.ok (fsR, its) →
      its = joinPath (dirname djp) "imagesTs" ∧
      FS.lexists fsR (joinPath its "001_0000.nrrd") = true) := by
  constructor
  · intro conv fs ctx input fsR djpR its djp hctx h
    obtain ⟨djp0, kvs, fs3, hctx0, hread, hdjpR, hits, hlex, hfsR⟩ := edit_M_ok h
    obtain rfl : djp0 = djp := by
      rw [hctx] at hctx0
      exact (Option.some.injEq _ _ ▸ hctx0).symm
    refine ⟨hits, ?_⟩
    rw [hits, hfsR]
    exact FS.lexists_writeFile_of_lexists hlex _ _
  · intro conv fs ctx input fsR its djp hctx h
    obtain ⟨djp0, kvs, fs3, hctx0, hread, hits, hlex, hfsR⟩ := edit_P_ok h
    obtain rfl : djp0 = djp := by
      rw [hctx] at hctx0
      exact (Option.some.injEq _ _ ▸ hctx0).symm
    refine ⟨hits, ?_⟩
    rw [hits, hfsR]
    exact FS.lexists_writeFile_of_lexists hlex _ _

/-- Witness for C5: a `.nrrd` input staged by main.py and a `.mha` input
staged by predict.py both land at the one fixed destination. -/
theorem claim_C5_fixed_staging_witness :
    ("model/imagesTs" : Path) = joinPath (dirname "model/dataset.json") "imagesTs" ∧
    FS.lexists
      [("model/dataset.json", FSEntry.file (Json.obj
          [("labels", Json.num 0), ("numTraining", Json.num 0), ("numTest", Json.num 1),
           ("test", Json.arr [Json.arr [Json.str "./imagesTs/001_0000.nrrd"]])])),
        ("model/imagesTs/001_0000.nrrd", FSEntry.file (Json.str "converted")),
        ("model/imagesTs", FSEntry.dir),
        ("in.mha", FSEntry.file (Json.str "raw"))]
      (joinPath "model/imagesTs" "001_0000.nrrd") = true :=
  claim_C5_fixed_staging.2 (fun _ => Json.str "converted")
    [("model/dataset.json", FSEntry.file (Json.obj
        [("labels", Json.num 0), ("training", Json.arr []),
         ("numTraining", Json.num 5), ("numTest", Json.num 0)])),
      ("in.mha", FSEntry.file (Json.str "raw"))]
    ⟨some "model/dataset.json", none⟩ "in.mha"
    [("model/dataset.json", FSEntry.file (Json.obj
        [("labels", Json.num 0), ("numTraining", Json.num 0), ("numTest", Json.num 1),
         ("test", Json.arr [Json.arr [Json.str "./imagesTs/001_0000.nrrd"]])])),
      ("model/imagesTs/001_0000.nrrd", FSEntry.file (Json.str "converted")),
      ("model/imagesTs", FSEntry.dir),
      ("in.mha", FSEntry.file (Json.str "raw"))]
    "model/imagesTs" "model/dataset.json" (by rfl) (by rfl)

/-! ## Claim C6 -/

/-- Claim C6 (amended): predict.py's `edit_dataset_json_for_prediction`
succeeds and overwrites the staged destination for every prior state of the
destination entry — no entry, a regular file, a valid symlink, or a dangling
symlink — because it clears the destination under `os.path.lexists`.
main.py's version instead checks `os.path.exists`, which is false for a
dangling symlink, so the stale link survives and `os.symlink` then fails
with `FileExistsError` for a `.nrrd` input (second conjunct, at a concrete
leftover). -/
theorem claim_C6_overwrite :
    (∀ conv fs ctx input djp kvs c,
      ctx.dataset_json_path = some djp →
      FS.lookup fs djp = some (FSEntry.file (Json.obj kvs)) →
      strLower (splitextExt input) = ".nrrd" →
      FS.lookup fs input = some (FSEntry.file c) →
      input ≠ stagedDst djp →
      ∃ fsR its, edit_dataset_json_P conv fs ctx input = Except.ok (fsR, its) ∧
        (djp ≠ stagedDst djp → FS.lookup fsR (stagedDst djp) = some (FSEntry.file c))) ∧
    edit_dataset_json_M (fun j => j)
      [("model/dataset.json", FSEntry.file (Json.obj [])),
       ("model/imagesTs", FSEntry.dir),
       ("model/imagesTs/001_0000.nrrd", FSEntry.symlink "gone"),
       ("in.nrrd", FSEntry.file (Json.str "img"))]
      ⟨some "model/dataset.json", none⟩ "in.nrrd"
    = Except.error Err.fileExists := by
  constructor
  · intro conv fs ctx input djp kvs c hctx hdj hext hin hne
    have hread : FS.readFile fs djp = some (Json.obj kvs) := by
      rw [FS.readFile, hdj]
    set its := joinPath (dirname djp) "imagesTs" with hits
    set dst := joinPath its "001_0000.nrrd" with hdst
    have hdst_eq : dst = stagedDst djp := rfl
    have hfs1 : FS.lookup (FS.mkdir fs its) input = some (FSEntry.file c) :=
      FS.lookup_mkdir_of_lookup hin its
    have hfs2 : FS.lookup (clearDst_P (FS.mkdir fs its) dst) input
        = some (FSEntry.file c) := by
      rw [clearDst_P]
      by_cases hl : FS.lexists (FS.mkdir fs its) dst
      · rw [if_pos hl, FS.lookup_remove, if_neg (fun he => hne (by rw [← he, hdst_eq]))]
        exact hfs1
      · rw [if_neg hl]
        exact hfs1
    have hread2 : FS.readFile (clearDst_P (FS.mkdir fs its) dst) input = some c := by
      rw [FS.readFile, hfs2]
    have hdst_clear : FS.lookup (clearDst_P (FS.mkdir fs its) dst) dst = none := by
      rw [clearDst_P]
      by_cases hl : FS.lexists (FS.mkdir fs its) dst
      · rw [if_pos hl, FS.lookup_remove, if_pos rfl]
      · rw [if_neg hl]
        rw [FS.lexists] at hl
        cases hlk : FS.lookup (FS.mkdir fs its) dst with
        | none => rfl
        | some e => rw [hlk] at hl; simp at hl
    have hstage : FS.writeFile (clearDst_P (FS.mkdir fs its) dst) dst c
        = FS.set (clearDst_P (FS.mkdir fs its) dst) dst (FSEntry.file c) := by
      rw [FS.writeFile, hdst_clear]
    refine ⟨FS.writeFile (FS.set (clearDst_P (FS.mkdir fs its) dst) dst (FSEntry.file c))
      djp (Json.obj (setKV (manifestRewrite kvs) "test"
        (Json.arr [Json.arr [Json.str "./imagesTs/001_0000.nrrd"]]))), its, ?_, ?_⟩
    · simp only [edit_dataset_json_P, hctx, hread, hext, eq_self_iff_true, if_true, hread2,
        hstage]
    · intro hdjp_ne
      rw [← hdst_eq]
      have hdjp_plain : ∀ t, FS.lookup (FS.set (clearDst_P (FS.mkdir fs its) dst) dst
          (FSEntry.file c)) djp ≠ some (FSEntry.symlink t) := by
        intro t hcon
        rw [FS.lookup_set,
          if_neg (fun he : dst = djp => hdjp_ne (he.symm.trans hdst_eq))] at hcon
        rw [clearDst_P] at hcon
        by_cases hl : FS.lexists (FS.mkdir fs its) dst
        · rw [if_pos hl, FS.lookup_remove] at hcon
          by_cases hde : dst = djp
          · rw [if_pos hde] at hcon; cases hcon
          · rw [if_neg hde] at hcon
            rw [FS.lookup_mkdir_of_lookup hdj its] at hcon
            cases hcon
        · rw [if_neg hl, FS.lookup_mkdir_of_lookup hdj its] at hcon
          cases hcon
      have hfinal := FS.lookup_writeFile_ne_of_plain hdjp_plain
        (Json.obj (setKV (manifestRewrite kvs) "test"
          (Json.arr [Json.arr [Json.str "./imagesTs/001_0000.nrrd"]])))
        (fun he : djp = dst => hdjp_ne (he.trans hdst_eq))
      rw [hfinal, FS.lookup_set, if_pos rfl]
  · rfl

/-- Witness for C6: predict.py's staging succeeds over a dangling-symlink
leftover at the destination and overwrites it with the input's content. -/
theorem claim_C6_overwrite_witness :
    ∃ fsR its,
      edit_dataset_json_P (fun j => j)
        [("model/dataset.json", FSEntry.file (Json.obj [])),
         ("model/imagesTs", FSEntry.dir),
         ("model/imagesTs/001_0000.nrrd", FSEntry.symlink "gone"),
         ("in.nrrd", FSEntry.file (Json.str "img"))]
        ⟨some "model/dataset.json", none⟩ "in.nrrd" = Except.ok (fsR, its) ∧
      ("model/dataset.json" ≠ stagedDst "model/dataset.json" →
        FS.lookup fsR (stagedDst "model/dataset.json")
          = some (FSEntry.file (Json.str "img"))) :=
  claim_C6_overwrite.1 (fun j => j)
    [("model/dataset.json", FSEntry.file (Json.obj [])),
     ("model/imagesTs", FSEntry.dir),
     ("model/imagesTs/001_0000.nrrd", FSEntry.symlink "gone"),
     ("in.nrrd", FSEntry.file (Json.str "img"))]
    ⟨some "model/dataset.json", none⟩ "in.nrrd" "model/dataset.json" []
    (Json.str "img") (by rfl) (by rfl) (by rfl) (by rfl) (by decide)

/-- Counterexample for C6 as stated: in main.py a dangling symlink left at
the staged destination makes staging fail (`os.path.exists` is false, so
the stale link is not removed, and `os.symlink` raises `FileExistsError`). -/
theorem claim_C6_cex :
    edit_dataset_json_M (fun j => j)
      [("model/dataset.json", FSEntry.file (Json.obj [])),
       ("model/imagesTs", FSEntry.dir),
       ("model/imagesTs/001_0000.nrrd", FSEntry.symlink "gone"),
       ("in.nrrd", FSEntry.file (Json.str "img"))]
      ⟨some "model/dataset.json", none⟩ "in.nrrd"
    ≠ Except.ok ([("model/dataset.json", FSEntry.file (Json.obj [])),
       ("model/imagesTs", FSEntry.dir),
       ("model/imagesTs/001_0000.nrrd", FSEntry.symlink "gone"),
       ("in.nrrd", FSEntry.file (Json.str "img"))], "model/dataset.json",
       "model/imagesTs") := by
  intro h
  have h0 : edit_dataset_json_M (fun j => j)
      [("model/dataset.json", FSEntry.file (Json.obj [])),
       ("model/imagesTs", FSEntry.dir),
       ("model/imagesTs/001_0000.nrrd", FSEntry.symlink "gone"),
       ("in.nrrd", FSEntry.file (Json.str "img"))]
      ⟨some "model/dataset.json", none⟩ "in.nrrd"
      = Except.error Err.fileExists := by rfl
  cases h0.symm.trans h

/-! ## Claim C7 -/

/-- Claim C7: an invalid mode/structure/animal combination (absent from the
model registry) makes both pipelines raise a lookup error with an empty
event trace: no download and no inference is ever attempted. -/
theorem claim_C7_lookup_guards :
    (∀ net unzip conv inferRun fs0 ctx0 config mode structure_ input output models_dir name,
      objGet2 config mode structure_ = none →
      main_pipeline net unzip conv inferRun fs0 ctx0 config mode structure_ input output
        models_dir name = (Except.error Err.keyError, [])) ∧
    (∀ net unzip conv inferRun fs0 ctx0 config mode structure_ input_path output_dir
        models_dir animal,
      objGet3 config animal mode structure_ = none →
      run_nnunet_prediction_P net unzip conv inferRun fs0 ctx0 config mode structure_
        input_path output_dir models_dir animal = (Except.error Err.keyError, [])) := by
  constructor
  · intro net unzip conv inferRun fs0 ctx0 config mode structure_ input output models_dir name h
    simp only [main_pipeline, h]
  · intro net unzip conv inferRun fs0 ctx0 config mode structure_ input_path output_dir
      models_dir animal h
    simp only [run_nnunet_prediction_P, h]

/-- Witness for C7: an empty registry rejects any combination in both
pipelines, with an empty event trace. -/
theorem claim_C7_lookup_guards_witness :
    main_pipeline (fun _ => Json.null) (fun _ => []) (fun j => j)
        (fun _ _ _ => Except.error Err.runtimeError) [] freshCtx (Json.obj [])
        "Invivo" "Parenchyma" "in.nrrd" "out" "models" "seg"
      = (Except.error Err.keyError, []) ∧
    run_nnunet_prediction_P (fun _ => Json.null) (fun _ => []) (fun j => j)
        (fun _ _ _ => Except.error Err.runtimeError) [] freshCtx (Json.obj [])
        "invivo" "parenchyma" "in.nrrd" "out" "models" "rabbit"
      = (Except.error Err.keyError, []) :=
  ⟨claim_C7_lookup_guards.1 (fun _ => Json.null) (fun _ => []) (fun j => j)
      (fun _ _ _ => Except.error Err.runtimeError) [] freshCtx (Json.obj [])
      "Invivo" "Parenchyma" "in.nrrd" "out" "models" "seg" (by rfl),
    claim_C7_lookup_guards.2 (fun _ => Json.null) (fun _ => []) (fun j => j)
      (fun _ _ _ => Except.error Err.runtimeError) [] freshCtx (Json.obj [])
      "invivo" "parenchyma" "in.nrrd" "out" "models" "rabbit" (by rfl)⟩

end NNU
